import Mathlib

/-!
CatCube replication layer

A shallow embedding of `NetworkService` (src/NetworkService.cpp) and of the
network callbacks that `Engine::init` installs (src/Engine.cpp), followed by
theorems about the packet formats, the decoding rule, the relay fan-out and
the event loop.

Conventions of the embedding

* A byte is a `Nat`; every read of a byte reduces it modulo 256.
* A `float` is represented by its IEEE-754 bit pattern (a `Nat` below 2^32).
  The networking code only copies floats, it never computes with them, so
  "the same float" means "the same bit pattern".
* `uint32_t` values are `Nat` reduced modulo 2^32, little-endian in memory.
* A pointer into `m_host->peers` is the index of the slot it points to.
* The ENet library is external: its data types appear as plain data, and
  what `enet_host_service` returns is an input of the event loop.
-/

namespace CatCube

/-! ## ENet data -/

/-- The enumeration ENetPeerState of enet.h. -/
inductive ENetPeerState where
  | DISCONNECTED
  | CONNECTING
  | ACKNOWLEDGING_CONNECT
  | CONNECTION_PENDING
  | CONNECTION_SUCCEEDED
  | CONNECTED
  | DISCONNECT_LATER
  | DISCONNECTING
  | ACKNOWLEDGING_DISCONNECT
  | ZOMBIE
deriving DecidableEq, Repr

/-- The two fields of ENetPeer that the program reads. -/
structure ENetPeer where
  incomingPeerID : Nat
  state : ENetPeerState

/-- The fields `peers` and `peerCount` of ENetHost. -/
structure ENetHost where
  peerCount : Nat
  peers : Nat → ENetPeer

/-- The packet flags the program passes to enet_packet_create; `ZERO` is the literal 0. -/
inductive ENetPacketFlag where
  | ZERO
  | RELIABLE
  | UNRELIABLE_FRAGMENT
deriving DecidableEq, Repr

/-- The enumeration ENetEventType of enet.h. -/
inductive ENetEventType where
  | NONE
  | CONNECT
  | DISCONNECT
  | RECEIVE
deriving DecidableEq, Repr

/-- A received packet as the program sees it: `packet->dataLength` and the memory
reachable through `packet->data`.  Offsets at or beyond `dataLength` lie outside
the payload; the function gives whatever the memory holds there. -/
structure ENetPacket where
  dataLength : Nat
  data : Nat → Nat

/-- The fields of ENetEvent: `peer` is the slot of `m_host->peers` the event refers to. -/
structure ENetEvent where
  type : ENetEventType
  peer : Nat
  packet : ENetPacket

/-! ## Program data -/

/-- The enum class NetworkRole of NetworkService.hpp. -/
inductive NetworkRole where
  | None
  | Server
  | Client
deriving DecidableEq, Repr

/-- Vector3 (Part.hpp): three floats, each as its bit pattern. -/
structure Vector3 where
  x : Nat
  y : Nat
  z : Nat
deriving DecidableEq, Repr

/-- The data members of NetworkService. -/
structure NetworkService where
  m_host : Option ENetHost
  m_peer : Option Nat
  m_role : NetworkRole
  m_mapName : List Nat

/-- What the networking code does to the outside: the four callback slots of
NetworkService.hpp (an entry stands for the guarded call `if (cb) cb(args)`)
and the two ENet send operations with the arguments of enet_packet_create. -/
inductive Effect where
  | onPlayerJoined (id : Nat)
  | onPlayerLeft (id : Nat)
  | onPositionReceived (id : Nat) (pos : Vector3) (yaw : Nat)
  | onMapReceived (name : List Nat)
  | peer_send (peer : Nat) (channelID : Nat) (flags : ENetPacketFlag) (data : List Nat)
  | host_broadcast (channelID : Nat) (flags : ENetPacketFlag) (data : List Nat)
deriving DecidableEq, Repr

/-- The enumerator PACKET_POS. -/
def PACKET_POS : Nat := 1

/-! ## Memory: scalars, struct layout, C strings -/

/-- The byte at offset `i`. -/
def byteAt (data : Nat → Nat) (i : Nat) : Nat := data i % 256

/-- Little-endian 32-bit load at offset `off` (used for `uint32_t` and, as a bit
pattern, for `float`). -/
def load32 (data : Nat → Nat) (off : Nat) : Nat :=
  byteAt data off + 256 * byteAt data (off + 1) + 65536 * byteAt data (off + 2)
    + 16777216 * byteAt data (off + 3)

/-- Little-endian object representation of a 32-bit scalar. -/
def bytes32 (v : Nat) : List Nat :=
  [v % 256, v / 256 % 256, v / 65536 % 256, v / 16777216 % 256]

/-- Number of padding bytes that bring offset `off` up to a multiple of `al`. -/
def padding (al off : Nat) : Nat := (al - off % al) % al

/-- Appends a member with alignment `al` and object representation `bytes` to the
struct under construction `obj`.  Padding bytes are never written by the program: they keep
what the stack held, `stack i` at struct offset `i`. -/
def member (stack : Nat → Nat) (al : Nat) (obj bytes : List Nat) : List Nat :=
  obj ++ (List.range (padding al obj.length)).map (fun i => stack (obj.length + i) % 256) ++ bytes

/-- The object `p` of sendPosition, `struct { uint8_t type; float x, y, z, yaw; }`,
as the `sizeof(p)` bytes handed to enet_packet_create.  `al` is `alignof(float)`
of the target ABI; the source has no packing directive. -/
def simplePkt (al : Nat) (stack : Nat → Nat) (pos : Vector3) (yaw : Nat) : List Nat :=
  let o0 := member stack 1 [] [PACKET_POS]
  let o1 := member stack al o0 (bytes32 pos.x)
  let o2 := member stack al o1 (bytes32 pos.y)
  let o3 := member stack al o2 (bytes32 pos.z)
  let o4 := member stack al o3 (bytes32 yaw)
  member stack al o4 []

/-- The object `rp`, `struct relay_pkt { uint8_t t; uint32_t id; float x, y, z, yaw; }`
(declared alike in sendPosition and in processPacket), as its `sizeof(rp)` bytes.
`al` is `alignof(uint32_t) = alignof(float)` of the target ABI. -/
def relayPkt (al : Nat) (stack : Nat → Nat) (id : Nat) (pos : Vector3) (yaw : Nat) : List Nat :=
  let o0 := member stack 1 [] [PACKET_POS]
  let o1 := member stack al o0 (bytes32 id)
  let o2 := member stack al o1 (bytes32 pos.x)
  let o3 := member stack al o2 (bytes32 pos.y)
  let o4 := member stack al o3 (bytes32 pos.z)
  let o5 := member stack al o4 (bytes32 yaw)
  member stack al o5 []

/-- The function strncpy(dest, src, n) for `src` a NUL-terminated string whose
characters before the terminator start the list `src`: the first `n` bytes of
`dest` receive the characters, then NULs if the string is shorter than `n`;
the bytes of `dest` from offset `n` on are not touched. -/
def strncpy (dest src : List Nat) (n : Nat) : List Nat :=
  let s := (src.map (· % 256)).takeWhile (· ≠ 0)
  s.take n ++ List.replicate (n - s.length) 0 ++ dest.drop n

/-- The object `mp` of handleEvents, `struct { uint8_t t; char name[64]; }`, after
`mp.t = 254` and `strncpy(mp.name, m_mapName.c_str(), 63)`.  The struct is not
initialised, so `name` starts as stack content at struct offsets 1..64. -/
def metadataPkt (stack : Nat → Nat) (mapName : List Nat) : List Nat :=
  254 :: strncpy ((List.range 64).map (fun i => stack (1 + i) % 256)) mapName 63

/-- The constructor std::string(const char*) applied to `data + off`: the bytes
up to the first NUL.  The scan inspects at most `fuel` bytes and gives `none`
when it has found no NUL among them. -/
def cstring (data : Nat → Nat) (off : Nat) : Nat → Option (List Nat)
  | 0 => none
  | fuel + 1 =>
    if byteAt data off = 0 then some []
    else (cstring data (off + 1) fuel).map (byteAt data off :: ·)

/-- A packet that was created from `bytes`, as its receiver sees it; `heap` is the
memory behind the payload. -/
def deliver (bytes : List Nat) (heap : Nat → Nat) : ENetPacket where
  dataLength := bytes.length
  data := fun i => if i < bytes.length then bytes.getD i 0 else heap i

/-! ## NetworkService -/

/-- The member function NetworkService::sendPosition (NetworkService.cpp:76-102).
`al` is the alignment of 4-byte scalars, `stack` the indeterminate content of the
local struct that is sent. -/
def sendPosition (ns : NetworkService) (al : Nat) (stack : Nat → Nat)
    (pos : Vector3) (yaw : Nat) : List Effect :=
  match ns.m_host with
  | none => []
  | some _ =>
    match ns.m_role, ns.m_peer with
    | NetworkRole.Client, some pr =>
      [Effect.peer_send pr 0 ENetPacketFlag.UNRELIABLE_FRAGMENT (simplePkt al stack pos yaw)]
    | NetworkRole.Server, _ =>
      [Effect.host_broadcast 0 ENetPacketFlag.UNRELIABLE_FRAGMENT (relayPkt al stack 0 pos yaw)]
    | _, _ => []

/-- The relay loop of processPacket (NetworkService.cpp:175-179): one enet_peer_send
of `rp` for every slot other than `peer` whose state is CONNECTED. -/
def relayFanOut (host : ENetHost) (peer : Nat) (rp : List Nat) : List Effect :=
  ((List.range host.peerCount).filter
      (fun i => decide (i ≠ peer) && decide ((host.peers i).state = ENetPeerState.CONNECTED))).map
    (fun i => Effect.peer_send i 0 ENetPacketFlag.UNRELIABLE_FRAGMENT rp)

/-- The member function NetworkService::processPacket (NetworkService.cpp:138-182).
`host` is `*m_host`, `peer` the slot the packet came from.  The result is `none`
only when the scan for the end of the world name exhausts `fuel`. -/
def processPacket (ns : NetworkService) (al : Nat) (stack : Nat → Nat) (fuel : Nat)
    (host : ENetHost) (peer : Nat) (packet : ENetPacket) : Option (List Effect) :=
  if packet.dataLength < 1 then some []
  else
    let type := byteAt packet.data 0
    let id := (host.peers peer).incomingPeerID % 65536
    if type = 254 then
      (cstring packet.data 1 fuel).map (fun name => [Effect.onMapReceived name])
    else if type = PACKET_POS then
      let relayed : Bool := decide (1 + 4 + 4 * 4 ≤ packet.dataLength)
      let senderId := if relayed then load32 packet.data 1 else id
      let dataPtr := if relayed then 1 + 4 else 1
      let x := load32 packet.data dataPtr
      let y := load32 packet.data (dataPtr + 4)
      let z := load32 packet.data (dataPtr + 8)
      let yaw := load32 packet.data (dataPtr + 12)
      some (Effect.onPositionReceived senderId ⟨x, y, z⟩ yaw ::
        (if ns.m_role = NetworkRole.Server then
          relayFanOut host peer (relayPkt al stack id ⟨x, y, z⟩ yaw)
         else []))
    else some []

/-- One answer of `enet_host_service(m_host, &event, 0) > 0`: the event, the host
as the call left it, and `stack`, the indeterminate content of the local structs
of the loop iteration that handles the event. -/
structure Service where
  host : ENetHost
  event : ENetEvent
  stack : Nat → Nat

/-- The body of the while loop of NetworkService::handleEvents (NetworkService.cpp:107-134). -/
def handleEvent (ns : NetworkService) (al fuel : Nat) (s : Service) : Option (List Effect) :=
  match s.event.type with
  | ENetEventType.CONNECT =>
    some (Effect.onPlayerJoined ((s.host.peers s.event.peer).incomingPeerID % 65536) ::
      (if ns.m_role = NetworkRole.Server then
        [Effect.peer_send s.event.peer 0 ENetPacketFlag.RELIABLE (metadataPkt s.stack ns.m_mapName)]
       else []))
  | ENetEventType.RECEIVE =>
    processPacket ns al s.stack fuel s.host s.event.peer s.event.packet
  | ENetEventType.DISCONNECT =>
    some [Effect.onPlayerLeft ((s.host.peers s.event.peer).incomingPeerID % 65536)]
  | ENetEventType.NONE => some []

/-- The member function NetworkService::handleEvents (NetworkService.cpp:104-136) on the
events that enet_host_service hands out until it reports no further event.  The
result lists, per completed loop iteration, what the iteration did; the loop
does not get past an iteration whose name scan finds no terminator. -/
def handleEvents (ns : NetworkService) (al fuel : Nat) : List Service → List (List Effect)
  | [] => []
  | s :: rest =>
    match handleEvent ns al fuel s with
    | none => []
    | some effs => effs :: handleEvents ns al fuel rest

/-- The member function NetworkService::update (NetworkService.cpp:67-70). -/
def update (ns : NetworkService) (al fuel : Nat) (service : List Service) : List (List Effect) :=
  match ns.m_host with
  | none => []
  | some _ => handleEvents ns al fuel service

/-! ## NetworkService: construction and start -/

/-- The constructor NetworkService::NetworkService with the default member initialisers of
NetworkService.hpp:60-63; the bytes spell "Unknown". -/
def newNetworkService : NetworkService :=
  ⟨none, none, NetworkRole.None, [85, 110, 107, 110, 111, 119, 110]⟩

/-- The member function NetworkService::getRole (NetworkService.hpp:47). -/
def getRole (ns : NetworkService) : NetworkRole := ns.m_role

/-- The member function NetworkService::isConnected (NetworkService.hpp:48). -/
def isConnected (ns : NetworkService) : Bool := ns.m_host.isSome

/-- The member function NetworkService::startServer (NetworkService.cpp:28-43): the state
after the call and the value returned.  `created` is what
`enet_host_create(&address, 32, 2, 0, 0)` returns, `none` for a null pointer. -/
def startServer (ns : NetworkService) (mapName : List Nat) (_port : Int)
    (created : Option ENetHost) : NetworkService × Bool :=
  let ns1 : NetworkService := ⟨created, ns.m_peer, ns.m_role, mapName⟩
  match created with
  | none => (ns1, false)
  | some _ => (⟨ns1.m_host, ns1.m_peer, NetworkRole.Server, ns1.m_mapName⟩, true)

/-- The member function NetworkService::startClient (NetworkService.cpp:45-65): the state
after the call and the value returned.  `created` is what
`enet_host_create(nullptr, 1, 2, 0, 0)` returns, `resolved` what enet_address_set_host
returns (0 on success, negative on failure), `connected` what enet_host_connect
returns, as the slot of the new peer or `none` for a null pointer. -/
def startClient (ns : NetworkService) (_addressStr : List Nat) (_port : Int)
    (created : Option ENetHost) (_resolved : Int) (connected : Option Nat) :
    NetworkService × Bool :=
  let ns1 : NetworkService := ⟨created, ns.m_peer, ns.m_role, ns.m_mapName⟩
  match created with
  | none => (ns1, false)
  | some _ =>
    let ns2 : NetworkService := ⟨ns1.m_host, connected, ns1.m_role, ns1.m_mapName⟩
    match connected with
    | none => (ns2, false)
    | some _ => (⟨ns2.m_host, ns2.m_peer, NetworkRole.Client, ns2.m_mapName⟩, true)

/-- One call of startServer or startClient together with what the transport returns
during the call. -/
inductive StartCall where
  | server (mapName : List Nat) (port : Int) (created : Option ENetHost)
  | client (addressStr : List Nat) (port : Int) (created : Option ENetHost) (resolved : Int)
      (connected : Option Nat)

/-- The state after one such call. -/
def StartCall.apply (ns : NetworkService) : StartCall → NetworkService
  | StartCall.server mapName port created => (startServer ns mapName port created).1
  | StartCall.client addressStr port created resolved connected =>
    (startClient ns addressStr port created resolved connected).1

/-- The state after a sequence of such calls. -/
def startCalls (ns : NetworkService) (calls : List StartCall) : NetworkService :=
  calls.foldl StartCall.apply ns

/-! ## Engine: the registry of remote participants -/

/-- Modelled from the spec: CharacterHelper::createCharacter and the Model class are
not among the sources.  The placeholder entity of a remote participant is its name
and the position of its primary part, if it has one. -/
structure Model where
  name : String
  primaryPart : Option Vector3
deriving DecidableEq, Repr

/-- Modelled from the spec: CharacterHelper::createCharacter(name, position) gives a
placeholder entity of that name whose primary part is at `position`. -/
def createCharacter (name : String) (position : Vector3) : Model :=
  ⟨name, some position⟩

/-- The part of Engine the network callbacks act on.  `m_remotePlayers` is the member of
that name, a `std::map<uint32_t, ModelPtr>`.  `updateCharacterPhysics` is what the call
`CharacterHelper::updateCharacterPhysics(character, {0,0,0}, false, m_physics, 0.016f)` of
Engine.cpp:133 makes of the character it is handed: CharacterHelper and the physics
service are not among the sources, so the routine is a parameter of the model and
nothing is assumed about it.  The scene graph (setParent) and the set of parts the
physics service knows (registerPhysicsRecursively, Engine.cpp:184-193) are not part of
the registry and are left out. -/
structure Engine where
  m_remotePlayers : Nat → Option Model
  updateCharacterPhysics : Model → Model

/-- The callback Engine::init stores in onPlayerJoined (Engine.cpp:85-90); 1101004800 is
the bit pattern of 20.0f. -/
def Engine.onPlayerJoined (e : Engine) (id : Nat) : Engine :=
  ⟨Function.update e.m_remotePlayers id
      (some (createCharacter ("RemotePlayer_" ++ toString id) ⟨0, 1101004800, 0⟩)),
    e.updateCharacterPhysics⟩

/-- The callback Engine::init stores in onPlayerLeft (Engine.cpp:92-98). -/
def Engine.onPlayerLeft (e : Engine) (id : Nat) : Engine :=
  if (e.m_remotePlayers id).isSome then
    ⟨Function.update e.m_remotePlayers id none, e.updateCharacterPhysics⟩
  else e

/-- The callback Engine::init stores in onPositionReceived (Engine.cpp:116-135): the
record is created when absent; then, if the character has a primary part (`if (root)`),
the part is moved to `pos` and the character is handed to updateCharacterPhysics;
`yaw` is not used (`(void)yaw;`). -/
def Engine.onPositionReceived (e : Engine) (id : Nat) (pos : Vector3) (_yaw : Nat) : Engine :=
  let players :=
    if (e.m_remotePlayers id).isNone then
      Function.update e.m_remotePlayers id
        (some (createCharacter ("Remote_" ++ toString id) ⟨0, 0, 0⟩))
    else e.m_remotePlayers
  match players id with
  | some m =>
    (match m.primaryPart with
     | some _ =>
       ⟨Function.update players id (some (e.updateCharacterPhysics ⟨m.name, some pos⟩)),
         e.updateCharacterPhysics⟩
     | none => ⟨players, e.updateCharacterPhysics⟩)
  | none => ⟨players, e.updateCharacterPhysics⟩

/-- What one effect of the networking code does to the registry: the callbacks run
the code Engine::init installed, onMapReceived (Engine.cpp:100-114) and the sends do
not touch `m_remotePlayers`. -/
def Engine.handle (e : Engine) : Effect → Engine
  | Effect.onPlayerJoined id => e.onPlayerJoined id
  | Effect.onPlayerLeft id => e.onPlayerLeft id
  | Effect.onPositionReceived id pos yaw => e.onPositionReceived id pos yaw
  | Effect.onMapReceived _ => e
  | Effect.peer_send _ _ _ _ => e
  | Effect.host_broadcast _ _ _ => e

/-- The registry after a run of effects. -/
def Engine.run (e : Engine) (effs : List Effect) : Engine :=
  effs.foldl Engine.handle e

/-! ## Sample data -/

/-- A host with three slots, all in the connected state; slot `i` has handle `i`. -/
def sampleHost : ENetHost := ⟨3, fun i => ⟨i, ENetPeerState.CONNECTED⟩⟩

/-- A server on `sampleHost` whose world is "Baseplate". -/
def sampleServer : NetworkService :=
  ⟨some sampleHost, none, NetworkRole.Server, [66, 97, 115, 101, 112, 108, 97, 116, 101]⟩

/-- A packet of 17 bytes: kind 1, then 1.0f, 2.0f, 3.0f, 0.0f without gaps. -/
def samplePacket17 : ENetPacket :=
  deliver [1, 0, 0, 128, 63, 0, 0, 0, 64, 0, 0, 64, 64, 0, 0, 0, 0] (fun _ => 0)

/-- Three answers of enet_host_service on `sampleHost`: the peer of slot 0 connects,
the peer of slot 1 connects, then slot 0 delivers `samplePacket17`. -/
def sampleService : List Service :=
  [⟨⟨3, fun i => ⟨i, if i = 0 then ENetPeerState.CONNECTED else ENetPeerState.DISCONNECTED⟩⟩,
      ⟨ENetEventType.CONNECT, 0, ⟨0, fun _ => 0⟩⟩, fun _ => 0⟩,
   ⟨⟨3, fun i => ⟨i, if i ≤ 1 then ENetPeerState.CONNECTED else ENetPeerState.DISCONNECTED⟩⟩,
      ⟨ENetEventType.CONNECT, 1, ⟨0, fun _ => 0⟩⟩, fun _ => 0⟩,
   ⟨⟨3, fun i => ⟨i, if i ≤ 1 then ENetPeerState.CONNECTED else ENetPeerState.DISCONNECTED⟩⟩,
      ⟨ENetEventType.RECEIVE, 0, samplePacket17⟩, fun _ => 0⟩]

/-- A Receive event on `sampleHost` whose 3-byte payload starts with the kind byte 7. -/
def sampleUnknown : Service :=
  ⟨sampleHost, ⟨ENetEventType.RECEIVE, 0, deliver [7, 1, 2] (fun _ => 0)⟩, fun _ => 0⟩

/-- Two answers of enet_host_service on `sampleHost`: the peer of slot 1 (handle 1)
connects, then delivers `samplePacket17`. -/
def sampleServiceFrom1 : List Service :=
  [⟨sampleHost, ⟨ENetEventType.CONNECT, 1, ⟨0, fun _ => 0⟩⟩, fun _ => 0⟩,
   ⟨sampleHost, ⟨ENetEventType.RECEIVE, 1, samplePacket17⟩, fun _ => 0⟩]

/-- The Connect event of the peer in slot 2 of `sampleHost`. -/
def sampleConnect2 : Service :=
  ⟨sampleHost, ⟨ENetEventType.CONNECT, 2, ⟨0, fun _ => 0⟩⟩, fun _ => 0⟩

/-- The Disconnect event of the peer in slot 2 of `sampleHost`. -/
def sampleDisconnect2 : Service :=
  ⟨sampleHost, ⟨ENetEventType.DISCONNECT, 2, ⟨0, fun _ => 0⟩⟩, fun _ => 0⟩

/-- The Connect event of the peer in slot 0 of `sampleHost`, whose handle is 0. -/
def sampleConnect0 : Service :=
  ⟨sampleHost, ⟨ENetEventType.CONNECT, 0, ⟨0, fun _ => 0⟩⟩, fun _ => 0⟩

/-- A Receive event through slot 1 of `sampleHost` with a 21-byte payload of kind 1 that
names sender 0 and carries the floats 1.0f, 2.0f, 3.0f, 0.0f. -/
def sampleNamesZero : Service :=
  ⟨sampleHost, ⟨ENetEventType.RECEIVE, 1,
    deliver [1, 0, 0, 0, 0, 0, 0, 128, 63, 0, 0, 0, 64, 0, 0, 64, 64, 0, 0, 0, 0] (fun _ => 0)⟩,
    fun _ => 0⟩

/-! ## Vocabulary of the statements -/

/-- Whether an effect is the call of one of the four callback slots. -/
def Effect.isCallback : Effect → Bool
  | Effect.onPlayerJoined _ => true
  | Effect.onPlayerLeft _ => true
  | Effect.onPositionReceived _ _ _ => true
  | Effect.onMapReceived _ => true
  | Effect.peer_send _ _ _ _ => false
  | Effect.host_broadcast _ _ _ => false

/-- The events surfaced to the application, in order. -/
def surfaced (effs : List Effect) : List Effect := effs.filter Effect.isCallback

/-- The packets handed to ENet, in order. -/
def sent (effs : List Effect) : List Effect := effs.filter (fun e => !e.isCallback)

/-- Offset of the four floats in a kind=1 payload, as processPacket chooses it by
the payload length (`dataPtr`, NetworkService.cpp:153-160). -/
def floatsOffset (packet : ENetPacket) : Nat :=
  if 21 ≤ packet.dataLength then 5 else 1

/-- The position processPacket reads from a kind=1 payload. -/
def decodedPos (packet : ENetPacket) : Vector3 :=
  ⟨load32 packet.data (floatsOffset packet), load32 packet.data (floatsOffset packet + 4),
    load32 packet.data (floatsOffset packet + 8)⟩

/-- The yaw processPacket reads from a kind=1 payload. -/
def decodedYaw (packet : ENetPacket) : Nat :=
  load32 packet.data (floatsOffset packet + 12)

/-- The transport handle of the peer an event refers to,
`(uint32_t)event.peer->incomingPeerID`. -/
def handleOf (s : Service) : Nat := (s.host.peers s.event.peer).incomingPeerID % 65536

/-- The sender id processPacket gives to the position event of a kind=1 payload. -/
def senderOf (s : Service) : Nat :=
  if 21 ≤ s.event.packet.dataLength then load32 s.event.packet.data 1 else handleOf s

/-- The event brings no id 0 to the application: it is not a Connect event of a peer
with handle 0 and not a Receive event of a kind=1 payload whose sender id is 0. -/
def bringsNoZero (s : Service) : Prop :=
  (s.event.type = ENetEventType.CONNECT → handleOf s ≠ 0) ∧
  (s.event.type = ENetEventType.RECEIVE → 1 ≤ s.event.packet.dataLength →
    byteAt s.event.packet.data 0 = 1 → senderOf s ≠ 0)

/-- Whether an effect is a participant-joined or a position event for id 0. -/
def Effect.namesZero : Effect → Bool
  | Effect.onPlayerJoined id => decide (id = 0)
  | Effect.onPositionReceived id _ _ => decide (id = 0)
  | _ => false

/-- The payload of a packet handed to ENet. -/
def Effect.payload : Effect → Option (List Nat)
  | Effect.peer_send _ _ _ data => some data
  | Effect.host_broadcast _ _ data => some data
  | _ => none

/-- A call of startClient in which the host is created and enet_host_connect then
returns a null pointer. -/
def StartCall.connectFails : StartCall → Bool
  | StartCall.client _ _ (some _) _ none => true
  | _ => false

/-- Slot `p` of the host is in use and in the connected state. -/
def connectedIn (host : ENetHost) (p : Nat) : Prop :=
  p < host.peerCount ∧ (host.peers p).state = ENetPeerState.CONNECTED

instance (host : ENetHost) (p : Nat) : Decidable (connectedIn host p) :=
  inferInstanceAs (Decidable (_ ∧ _))

/-- The scan for the end of the world name ends within `fuel` bytes: if the event is
a Receive event with a non-empty payload of kind 254, one of the `fuel` bytes from
offset 1 on is NUL.  Events of any other sort satisfy this. -/
def scanEnds (fuel : Nat) (s : Service) : Prop :=
  s.event.type = ENetEventType.RECEIVE → 1 ≤ s.event.packet.dataLength →
    byteAt s.event.packet.data 0 = 254 →
    ∃ n, n < fuel ∧ byteAt s.event.packet.data (1 + n) = 0

/-- The transport puts a slot into the connected state only when it hands out the
Connect event of that slot: whenever slot `p` is connected as answer `k` is handed out
and was not as the answer before was (or `k` is the first answer of a fresh host),
answer `k` is the Connect event of `p`. -/
def entersByConnect (service : List Service) : Prop :=
  ∀ k s p, service[k]? = some s → connectedIn s.host p →
    (k = 0 ∨ ∃ s0, service[k - 1]? = some s0 ∧ ¬ connectedIn s0.host p) →
    s.event.type = ENetEventType.CONNECT ∧ s.event.peer = p

/-! # Theorems -/

/-! ## processPacket: the shape of its result -/

theorem processPacket_pos (ns : NetworkService) (al : Nat) (stack : Nat → Nat) (fuel : Nat)
    (host : ENetHost) (peer : Nat) (packet : ENetPacket)
    (hlen : 1 ≤ packet.dataLength) (hkind : byteAt packet.data 0 = 1) :
    processPacket ns al stack fuel host peer packet =
      some (Effect.onPositionReceived
          (if 21 ≤ packet.dataLength then load32 packet.data 1
           else (host.peers peer).incomingPeerID % 65536)
          (decodedPos packet) (decodedYaw packet) ::
        (if ns.m_role = NetworkRole.Server then
          relayFanOut host peer (relayPkt al stack ((host.peers peer).incomingPeerID % 65536)
            (decodedPos packet) (decodedYaw packet))
         else [])) := by
  have h1 : ¬ packet.dataLength < 1 := by omega
  simp [processPacket, h1, hkind, PACKET_POS, decodedPos, decodedYaw, floatsOffset]

theorem surfaced_relayFanOut (host : ENetHost) (peer : Nat) (rp : List Nat) :
    surfaced (relayFanOut host peer rp) = [] := by
  simp only [surfaced, relayFanOut, List.filter_eq_nil_iff, List.mem_map]
  rintro a ⟨i, _, rfl⟩
  simp [Effect.isCallback]

theorem sent_relayFanOut (host : ENetHost) (peer : Nat) (rp : List Nat) :
    sent (relayFanOut host peer rp) = relayFanOut host peer rp := by
  simp only [sent, relayFanOut, List.filter_eq_self, List.mem_map]
  rintro a ⟨i, _, rfl⟩
  simp [Effect.isCallback]

theorem surfaced_pos_cons (sid : Nat) (pos : Vector3) (yaw : Nat) (c : Prop) [Decidable c]
    (host : ENetHost) (peer : Nat) (rp : List Nat) :
    surfaced (Effect.onPositionReceived sid pos yaw :: (if c then relayFanOut host peer rp else []))
      = [Effect.onPositionReceived sid pos yaw] := by
  have hfan := surfaced_relayFanOut host peer rp
  by_cases hc : c
  · simp only [hc, if_true]
    simp only [surfaced] at hfan ⊢
    simp [List.filter_cons, Effect.isCallback, hfan]
  · simp [hc, surfaced, List.filter_cons, Effect.isCallback]

theorem sent_pos_cons (sid : Nat) (pos : Vector3) (yaw : Nat) (c : Prop) [Decidable c]
    (host : ENetHost) (peer : Nat) (rp : List Nat) :
    sent (Effect.onPositionReceived sid pos yaw :: (if c then relayFanOut host peer rp else []))
      = if c then relayFanOut host peer rp else [] := by
  have hfan := sent_relayFanOut host peer rp
  by_cases hc : c
  · simp only [hc, if_true]
    simp only [sent] at hfan ⊢
    rw [List.filter_cons_of_neg (by simp [Effect.isCallback])]
    exact hfan
  · simp [hc, sent, List.filter_cons, Effect.isCallback]

theorem count_relayFanOut (host : ENetHost) (peer : Nat) (rp : List Nat) (i : Nat) :
    (relayFanOut host peer rp).count (Effect.peer_send i 0 ENetPacketFlag.UNRELIABLE_FRAGMENT rp) =
      if connectedIn host i ∧ i ≠ peer then 1 else 0 := by
  have hnd : (relayFanOut host peer rp).Nodup := by
    unfold relayFanOut
    refine List.Nodup.map ?_ (List.Nodup.filter _ (List.nodup_range _))
    intro a b hab
    simpa using hab
  rw [List.count_eq_of_nodup hnd]
  have hmem : Effect.peer_send i 0 ENetPacketFlag.UNRELIABLE_FRAGMENT rp ∈ relayFanOut host peer rp ↔
      (connectedIn host i ∧ i ≠ peer) := by
    simp only [relayFanOut, connectedIn, List.mem_map, List.mem_filter, List.mem_range,
      Bool.and_eq_true, decide_eq_true_eq]
    constructor
    · rintro ⟨j, ⟨hj, hne, hst⟩, hEq⟩
      have hji : j = i := by simpa using hEq
      subst hji
      exact ⟨⟨hj, hst⟩, hne⟩
    · rintro ⟨⟨hj, hst⟩, hne⟩
      exact ⟨i, ⟨hj, hne, hst⟩, rfl⟩
  simp only [hmem]

theorem processPacket_ignored (ns : NetworkService) (al : Nat) (stack : Nat → Nat) (fuel : Nat)
    (host : ENetHost) (peer : Nat) (packet : ENetPacket)
    (h : packet.dataLength = 0 ∨ (byteAt packet.data 0 ≠ 1 ∧ byteAt packet.data 0 ≠ 254)) :
    processPacket ns al stack fuel host peer packet = some [] := by
  rcases h with h0 | ⟨h1, h254⟩
  · simp [processPacket, h0]
  · by_cases hl : packet.dataLength < 1
    · simp [processPacket, hl]
    · simp [processPacket, hl, h1, h254, PACKET_POS]

/-! ## Struct layouts and what a receiver reads from them

`al = 4` is the alignment of `float` and `uint32_t` on x86, x86-64 and ARM; the source
has no packing directive, so there the structs carry three padding bytes after the
kind byte.  `al = 1` is the layout without padding that the comment in processPacket
describes (`[uint8 t, float x,y,z,yaw]`, `[uint8 t, uint32 id, float x,y,z,yaw]`). -/

theorem load32_bytes (v : Nat) :
    v % 256 + 256 * (v / 256 % 256) + 65536 * (v / 65536 % 256) + 16777216 * (v / 16777216 % 256)
      = v % 4294967296 := by
  omega

theorem simplePkt_abi4 (stack : Nat → Nat) (pos : Vector3) (yaw : Nat) :
    simplePkt 4 stack pos yaw =
      [1, stack 1 % 256, stack 2 % 256, stack 3 % 256] ++ bytes32 pos.x ++ bytes32 pos.y
        ++ bytes32 pos.z ++ bytes32 yaw := by
  simp [simplePkt, member, padding, bytes32, PACKET_POS, List.range_succ]

theorem relayPkt_abi4 (stack : Nat → Nat) (id : Nat) (pos : Vector3) (yaw : Nat) :
    relayPkt 4 stack id pos yaw =
      [1, stack 1 % 256, stack 2 % 256, stack 3 % 256] ++ bytes32 id ++ bytes32 pos.x
        ++ bytes32 pos.y ++ bytes32 pos.z ++ bytes32 yaw := by
  simp [relayPkt, member, padding, bytes32, PACKET_POS, List.range_succ]

theorem decode_simplePkt_abi4 (ns : NetworkService) (al : Nat) (stack0 : Nat → Nat) (fuel : Nat)
    (host : ENetHost) (peer : Nat) (stack heap : Nat → Nat) (pos : Vector3) (yaw : Nat) :
    (processPacket ns al stack0 fuel host peer (deliver (simplePkt 4 stack pos yaw) heap)).map
        surfaced =
      some [Effect.onPositionReceived ((host.peers peer).incomingPeerID % 65536)
        ⟨stack 1 % 256 + 256 * (stack 2 % 256) + 65536 * (stack 3 % 256)
            + 16777216 * (pos.x % 256),
         pos.x / 256 % 256 + 256 * (pos.x / 65536 % 256) + 65536 * (pos.x / 16777216 % 256)
            + 16777216 * (pos.y % 256),
         pos.y / 256 % 256 + 256 * (pos.y / 65536 % 256) + 65536 * (pos.y / 16777216 % 256)
            + 16777216 * (pos.z % 256)⟩
        (pos.z / 256 % 256 + 256 * (pos.z / 65536 % 256) + 65536 * (pos.z / 16777216 % 256)
            + 16777216 * (yaw % 256))] := by
  rw [processPacket_pos _ _ _ _ _ _ _ (by simp [deliver, simplePkt_abi4, bytes32])
    (by simp [deliver, simplePkt_abi4, bytes32, byteAt])]
  simp only [Option.map_some', surfaced_pos_cons]
  simp [deliver, simplePkt_abi4, bytes32, byteAt, load32, decodedPos, decodedYaw, floatsOffset]

theorem decode_relayPkt_abi4 (ns : NetworkService) (al : Nat) (stack0 : Nat → Nat) (fuel : Nat)
    (host : ENetHost) (peer : Nat) (stack heap : Nat → Nat) (id : Nat) (pos : Vector3)
    (yaw : Nat) :
    (processPacket ns al stack0 fuel host peer (deliver (relayPkt 4 stack id pos yaw) heap)).map
        surfaced =
      some [Effect.onPositionReceived
        (stack 1 % 256 + 256 * (stack 2 % 256) + 65536 * (stack 3 % 256)
            + 16777216 * (id % 256))
        ⟨id / 256 % 256 + 256 * (id / 65536 % 256) + 65536 * (id / 16777216 % 256)
            + 16777216 * (pos.x % 256),
         pos.x / 256 % 256 + 256 * (pos.x / 65536 % 256) + 65536 * (pos.x / 16777216 % 256)
            + 16777216 * (pos.y % 256),
         pos.y / 256 % 256 + 256 * (pos.y / 65536 % 256) + 65536 * (pos.y / 16777216 % 256)
            + 16777216 * (pos.z % 256)⟩
        (pos.z / 256 % 256 + 256 * (pos.z / 65536 % 256) + 65536 * (pos.z / 16777216 % 256)
            + 16777216 * (yaw % 256))] := by
  rw [processPacket_pos _ _ _ _ _ _ _ (by simp [deliver, relayPkt_abi4, bytes32])
    (by simp [deliver, relayPkt_abi4, bytes32, byteAt])]
  simp only [Option.map_some', surfaced_pos_cons]
  simp [deliver, relayPkt_abi4, bytes32, byteAt, load32, decodedPos, decodedYaw, floatsOffset]

theorem simplePkt_packed (stack : Nat → Nat) (pos : Vector3) (yaw : Nat) :
    simplePkt 1 stack pos yaw =
      [1] ++ bytes32 pos.x ++ bytes32 pos.y ++ bytes32 pos.z ++ bytes32 yaw := by
  simp [simplePkt, member, padding, bytes32, PACKET_POS]

theorem relayPkt_packed (stack : Nat → Nat) (id : Nat) (pos : Vector3) (yaw : Nat) :
    relayPkt 1 stack id pos yaw =
      [1] ++ bytes32 id ++ bytes32 pos.x ++ bytes32 pos.y ++ bytes32 pos.z ++ bytes32 yaw := by
  simp [relayPkt, member, padding, bytes32, PACKET_POS]

theorem processPacket_simplePkt_packed (ns : NetworkService) (al : Nat) (stack0 : Nat → Nat)
    (fuel : Nat) (host : ENetHost) (peer : Nat) (stack heap : Nat → Nat) (pos : Vector3)
    (yaw : Nat) :
    processPacket ns al stack0 fuel host peer (deliver (simplePkt 1 stack pos yaw) heap) =
      some (Effect.onPositionReceived ((host.peers peer).incomingPeerID % 65536)
          ⟨pos.x % 4294967296, pos.y % 4294967296, pos.z % 4294967296⟩ (yaw % 4294967296) ::
        (if ns.m_role = NetworkRole.Server then
          relayFanOut host peer (relayPkt al stack0 ((host.peers peer).incomingPeerID % 65536)
            ⟨pos.x % 4294967296, pos.y % 4294967296, pos.z % 4294967296⟩ (yaw % 4294967296))
         else [])) := by
  have hp : decodedPos (deliver (simplePkt 1 stack pos yaw) heap) =
      ⟨pos.x % 4294967296, pos.y % 4294967296, pos.z % 4294967296⟩ := by
    simp [deliver, simplePkt_packed, bytes32, byteAt, load32, decodedPos, floatsOffset,
      load32_bytes]
  have hy : decodedYaw (deliver (simplePkt 1 stack pos yaw) heap) = yaw % 4294967296 := by
    simp [deliver, simplePkt_packed, bytes32, byteAt, load32, decodedYaw, floatsOffset,
      load32_bytes]
  rw [processPacket_pos _ _ _ _ _ _ _ (by simp [deliver, simplePkt_packed, bytes32])
    (by simp [deliver, simplePkt_packed, bytes32, byteAt]), hp, hy]
  simp [deliver, simplePkt_packed, bytes32]

theorem decode_relayPkt_packed (ns : NetworkService) (al : Nat) (stack0 : Nat → Nat)
    (fuel : Nat) (host : ENetHost) (peer : Nat) (stack heap : Nat → Nat) (id : Nat)
    (pos : Vector3) (yaw : Nat) :
    (processPacket ns al stack0 fuel host peer (deliver (relayPkt 1 stack id pos yaw) heap)).map
        surfaced =
      some [Effect.onPositionReceived (id % 4294967296)
        ⟨pos.x % 4294967296, pos.y % 4294967296, pos.z % 4294967296⟩ (yaw % 4294967296)] := by
  rw [processPacket_pos _ _ _ _ _ _ _ (by simp [deliver, relayPkt_packed, bytes32])
    (by simp [deliver, relayPkt_packed, bytes32, byteAt])]
  simp only [Option.map_some', surfaced_pos_cons]
  simp [deliver, relayPkt_packed, bytes32, byteAt, load32, decodedPos, decodedYaw, floatsOffset,
    load32_bytes]

/-! ## The world name: strncpy and the scan for the terminator -/

theorem cstring_eq (data : Nat → Nat) :
    ∀ (l : List Nat) (off fuel : Nat), (∀ b ∈ l, b ≠ 0) →
      (∀ i, i < l.length → byteAt data (off + i) = l.getD i 0) →
      byteAt data (off + l.length) = 0 → l.length < fuel →
      cstring data off fuel = some l := by
  intro l
  induction l with
  | nil =>
    intro off fuel _ _ hz hf
    cases fuel with
    | zero => simp at hf
    | succ f => simpa [cstring] using hz
  | cons b t ih =>
    intro off fuel hnz hbytes hz hf
    cases fuel with
    | zero => simp at hf
    | succ f =>
      have hb : byteAt data off = b := by simpa using hbytes 0 (by simp)
      have hb0 : b ≠ 0 := hnz b (by simp)
      have ht : cstring data (off + 1) f = some t := by
        apply ih
        · intro c hc
          exact hnz c (by simp [hc])
        · intro i hi
          have := hbytes (i + 1) (by simpa using hi)
          simpa [Nat.add_assoc, Nat.add_comm 1 i] using this
        · simpa [Nat.add_assoc, Nat.add_comm 1 t.length] using hz
        · simpa using hf
      simp [cstring, hb, hb0, ht]

theorem cstring_isSome (data : Nat → Nat) :
    ∀ (n off fuel : Nat), n < fuel → byteAt data (off + n) = 0 →
      (cstring data off fuel).isSome = true := by
  intro n
  induction n with
  | zero =>
    intro off fuel hf hz
    cases fuel with
    | zero => simp at hf
    | succ f => simp [cstring, show byteAt data off = 0 by simpa using hz]
  | succ n ih =>
    intro off fuel hf hz
    cases fuel with
    | zero => simp at hf
    | succ f =>
      by_cases h0 : byteAt data off = 0
      · simp [cstring, h0]
      · have := ih (off + 1) f (by omega)
          (by simpa [Nat.add_assoc, Nat.add_comm 1 n] using hz)
        simp only [cstring, h0, if_false, Option.isSome_map']
        exact this

theorem metadataPkt_eq (stack : Nat → Nat) (name : List Nat)
    (hlen : name.length ≤ 63) (hbytes : ∀ b ∈ name, b ≠ 0 ∧ b < 256) :
    metadataPkt stack name =
      254 :: (name ++ List.replicate (63 - name.length) 0 ++ [stack 64 % 256]) := by
  have hmap : name.map (· % 256) = name := by
    have h : name.map (· % 256) = name.map id :=
      List.map_congr_left (fun b hb => Nat.mod_eq_of_lt (hbytes b hb).2)
    simpa using h
  have htw : name.takeWhile (· ≠ 0) = name := by
    rw [List.takeWhile_eq_self_iff]
    intro b hb
    simpa using (hbytes b hb).1
  have hdrop : ((List.range 64).map (fun i => stack (1 + i) % 256)).drop 63 = [stack 64 % 256] := by
    simp [List.range_succ]
  simp only [metadataPkt, strncpy, hmap, htw, hdrop, List.take_of_length_le hlen]

theorem metadata_round_trip_short (ns : NetworkService) (al : Nat) (stack0 : Nat → Nat)
    (fuel : Nat) (host : ENetHost) (peer : Nat) (stack heap : Nat → Nat) (name : List Nat)
    (hlen : name.length ≤ 62) (hbytes : ∀ b ∈ name, b ≠ 0 ∧ b < 256) :
    (metadataPkt stack name).length = 65 ∧
    processPacket ns al stack0 (fuel + 64) host peer (deliver (metadataPkt stack name) heap) =
      some [Effect.onMapReceived name] := by
  have hpk := metadataPkt_eq stack name (by omega) hbytes
  have hl : (metadataPkt stack name).length = 65 := by
    rw [hpk]
    simp
    omega
  refine ⟨hl, ?_⟩
  have hcs : cstring (deliver (metadataPkt stack name) heap).data 1 (fuel + 64) = some name := by
    apply cstring_eq
    · intro b hb
      exact (hbytes b hb).1
    · intro i hi
      have hi65 : 1 + i < 65 := by omega
      simp only [deliver, byteAt, hl, hi65, if_true]
      rw [hpk, Nat.add_comm 1 i, List.getD_cons_succ, List.append_assoc,
        List.getD_append _ _ _ _ hi]
      have hlt : name.getD i 0 < 256 := by
        have hmem : name.getD i 0 ∈ name := by
          rw [List.getD_eq_getElem _ _ hi]
          exact List.getElem_mem hi
        exact (hbytes _ hmem).2
      exact Nat.mod_eq_of_lt hlt
    · have hi65 : 1 + name.length < 65 := by omega
      simp only [deliver, byteAt, hl, hi65, if_true]
      rw [hpk, Nat.add_comm 1 name.length, List.getD_cons_succ, List.append_assoc,
        List.getD_append_right _ _ _ _ (Nat.le_refl _)]
      have h63 : 63 - name.length = (62 - name.length) + 1 := by omega
      simp [h63, List.replicate_succ]
    · omega
  have h1 : ¬ (deliver (metadataPkt stack name) heap).dataLength < 1 := by
    simp [deliver, hl]
  have hk : byteAt (deliver (metadataPkt stack name) heap).data 0 = 254 := by
    simp [deliver, byteAt, hl, metadataPkt]
  simp [processPacket, h1, hk, hcs]

/-! ## The event loop -/

theorem handleEvents_skip (ns : NetworkService) (al fuel : Nat) (s : Service)
    (hs : handleEvent ns al fuel s = some []) (after : List Service) :
    ∀ before : List Service,
      (handleEvents ns al fuel (before ++ s :: after)).flatten =
        (handleEvents ns al fuel (before ++ after)).flatten := by
  intro before
  induction before with
  | nil => simp [handleEvents, hs]
  | cons b t ih =>
    simp only [List.cons_append, handleEvents]
    cases hb : handleEvent ns al fuel b with
    | none => rfl
    | some effs => simp [ih]

theorem handleEvents_getElem (ns : NetworkService) (al fuel : Nat) :
    ∀ (service : List Service) (k : Nat) (effs : List Effect),
      (handleEvents ns al fuel service)[k]? = some effs →
      ∃ s, service[k]? = some s ∧ handleEvent ns al fuel s = some effs := by
  intro service
  induction service with
  | nil => intro k effs h; simp [handleEvents] at h
  | cons b t ih =>
    intro k effs h
    simp only [handleEvents] at h
    cases hb : handleEvent ns al fuel b with
    | none => simp [hb] at h
    | some e =>
      simp only [hb] at h
      cases k with
      | zero =>
        simp at h
        exact ⟨b, by simp, by rw [hb, h]⟩
      | succ j =>
        simp only [List.getElem?_cons_succ] at h ⊢
        exact ih j effs h

theorem handleEvents_reached (ns : NetworkService) (al fuel : Nat) :
    ∀ (service : List Service) (k : Nat) (s : Service) (effs : List Effect),
      k ≤ (handleEvents ns al fuel service).length → service[k]? = some s →
      handleEvent ns al fuel s = some effs →
      (handleEvents ns al fuel service)[k]? = some effs := by
  intro service
  induction service with
  | nil => intro k s effs _ hs; simp at hs
  | cons b t ih =>
    intro k s effs hk hs he
    cases k with
    | zero =>
      simp at hs
      subst hs
      simp [handleEvents, he]
    | succ j =>
      simp only [List.getElem?_cons_succ] at hs
      simp only [handleEvents] at hk ⊢
      cases hb : handleEvent ns al fuel b with
      | none => simp [hb] at hk
      | some e =>
        simp only [hb, List.length_cons, Nat.add_le_add_iff_right] at hk
        simp only [List.getElem?_cons_succ]
        exact ih j s effs hk hs he

theorem connected_since_connect (service : List Service) (hw : entersByConnect service)
    (p : Nat) :
    ∀ (j : Nat) (s : Service), service[j]? = some s → connectedIn s.host p →
      ∃ i s0, i ≤ j ∧ service[i]? = some s0 ∧ s0.event.type = ENetEventType.CONNECT ∧
        s0.event.peer = p ∧
        ∀ m s1, i ≤ m → m ≤ j → service[m]? = some s1 → connectedIn s1.host p := by
  intro j
  induction j with
  | zero =>
    intro s hs hc
    obtain ⟨ht, hp⟩ := hw 0 s p hs hc (Or.inl rfl)
    refine ⟨0, s, Nat.le_refl _, hs, ht, hp, ?_⟩
    intro m s1 _ hm hs1
    have hm0 : m = 0 := by omega
    subst hm0
    rw [hs] at hs1
    cases hs1
    exact hc
  | succ j ih =>
    intro s hs hc
    have hlt : j < service.length := by
      have := (List.getElem?_eq_some_iff.mp hs).1
      omega
    obtain ⟨s', hs'⟩ : ∃ s', service[j]? = some s' := ⟨service[j], by simp [hlt]⟩
    by_cases hc' : connectedIn s'.host p
    · obtain ⟨i, s0, hij, hs0, ht, hp, hall⟩ := ih s' hs' hc'
      refine ⟨i, s0, by omega, hs0, ht, hp, ?_⟩
      intro m s1 him hmj hs1
      by_cases hmj' : m ≤ j
      · exact hall m s1 him hmj' hs1
      · have hm : m = j + 1 := by omega
        subst hm
        rw [hs] at hs1
        cases hs1
        exact hc
    · obtain ⟨ht, hp⟩ := hw (j + 1) s p hs hc (Or.inr ⟨s', by simpa using hs', hc'⟩)
      refine ⟨j + 1, s, Nat.le_refl _, hs, ht, hp, ?_⟩
      intro m s1 him hmj hs1
      have hm : m = j + 1 := by omega
      subst hm
      rw [hs] at hs1
      cases hs1
      exact hc

theorem handleEvent_connect (ns : NetworkService) (al fuel : Nat) (s : Service)
    (hrole : ns.m_role = NetworkRole.Server) (ht : s.event.type = ENetEventType.CONNECT) :
    handleEvent ns al fuel s =
      some [Effect.onPlayerJoined ((s.host.peers s.event.peer).incomingPeerID % 65536),
        Effect.peer_send s.event.peer 0 ENetPacketFlag.RELIABLE
          (metadataPkt s.stack ns.m_mapName)] := by
  simp [handleEvent, ht, hrole]

theorem handleEvent_send (ns : NetworkService) (al fuel : Nat) (s : Service)
    (effs : List Effect) (p ch : Nat) (fl : ENetPacketFlag) (data : List Nat)
    (he : handleEvent ns al fuel s = some effs)
    (hmem : Effect.peer_send p ch fl data ∈ effs) :
    (s.event.type = ENetEventType.CONNECT ∧ s.event.peer = p ∧ fl = ENetPacketFlag.RELIABLE) ∨
    (s.event.type = ENetEventType.RECEIVE ∧ fl = ENetPacketFlag.UNRELIABLE_FRAGMENT ∧
      connectedIn s.host p ∧ p ≠ s.event.peer) := by
  cases ht : s.event.type with
  | NONE =>
    simp [handleEvent, ht] at he
    subst he
    simp at hmem
  | DISCONNECT =>
    simp [handleEvent, ht] at he
    subst he
    simp at hmem
  | CONNECT =>
    left
    simp only [handleEvent, ht, Option.some.injEq] at he
    subst he
    by_cases hr : ns.m_role = NetworkRole.Server
    · simp [hr] at hmem
      exact ⟨rfl, hmem.1.symm, hmem.2.2.1⟩
    · simp [hr] at hmem
  | RECEIVE =>
    right
    simp only [handleEvent, ht] at he
    by_cases hl : s.event.packet.dataLength < 1
    · simp [processPacket, hl] at he
      subst he
      simp at hmem
    · by_cases h254 : byteAt s.event.packet.data 0 = 254
      · simp [processPacket, hl, h254] at he
        obtain ⟨nm, _, rfl⟩ := he
        simp at hmem
      · by_cases h1 : byteAt s.event.packet.data 0 = 1
        · rw [processPacket_pos _ _ _ _ _ _ _ (by omega) h1] at he
          simp only [Option.some.injEq] at he
          subst he
          by_cases hr : ns.m_role = NetworkRole.Server
          · simp only [hr, if_true, List.mem_cons, reduceCtorEq, false_or] at hmem
            simp only [relayFanOut, List.mem_map, List.mem_filter, List.mem_range,
              Bool.and_eq_true, decide_eq_true_eq] at hmem
            obtain ⟨i, ⟨hi, hne, hst⟩, hEq⟩ := hmem
            simp only [Effect.peer_send.injEq] at hEq
            obtain ⟨rfl, _, hfl, _⟩ := hEq
            exact ⟨rfl, hfl.symm, ⟨hi, hst⟩, hne⟩
          · simp [hr] at hmem
        · simp [processPacket, hl, h254, h1, PACKET_POS] at he
          subst he
          simp at hmem

theorem handleEvent_no_broadcast (ns : NetworkService) (al fuel : Nat) (s : Service)
    (effs : List Effect) (ch : Nat) (fl : ENetPacketFlag) (data : List Nat)
    (he : handleEvent ns al fuel s = some effs) :
    Effect.host_broadcast ch fl data ∉ effs := by
  intro hmem
  cases ht : s.event.type with
  | NONE =>
    simp [handleEvent, ht] at he
    subst he
    simp at hmem
  | DISCONNECT =>
    simp [handleEvent, ht] at he
    subst he
    simp at hmem
  | CONNECT =>
    simp only [handleEvent, ht, Option.some.injEq] at he
    subst he
    by_cases hr : ns.m_role = NetworkRole.Server
    · simp [hr] at hmem
    · simp [hr] at hmem
  | RECEIVE =>
    simp only [handleEvent, ht] at he
    by_cases hl : s.event.packet.dataLength < 1
    · simp [processPacket, hl] at he
      subst he
      simp at hmem
    · by_cases h254 : byteAt s.event.packet.data 0 = 254
      · simp [processPacket, hl, h254] at he
        obtain ⟨nm, _, rfl⟩ := he
        simp at hmem
      · by_cases h1 : byteAt s.event.packet.data 0 = 1
        · rw [processPacket_pos _ _ _ _ _ _ _ (by omega) h1] at he
          simp only [Option.some.injEq] at he
          subst he
          by_cases hr : ns.m_role = NetworkRole.Server
          · simp [hr, relayFanOut] at hmem
          · simp [hr] at hmem
        · simp [processPacket, hl, h254, h1, PACKET_POS] at he
          subst he
          simp at hmem

theorem handleEvent_isSome (ns : NetworkService) (al fuel : Nat) (s : Service)
    (h : scanEnds fuel s) : (handleEvent ns al fuel s).isSome = true := by
  cases ht : s.event.type with
  | NONE => simp [handleEvent, ht]
  | DISCONNECT => simp [handleEvent, ht]
  | CONNECT => simp [handleEvent, ht]
  | RECEIVE =>
    simp only [handleEvent, ht]
    by_cases hl : s.event.packet.dataLength < 1
    · simp [processPacket, hl]
    · by_cases h254 : byteAt s.event.packet.data 0 = 254
      · obtain ⟨n, hn, hz⟩ := h ht (by omega) h254
        have := cstring_isSome s.event.packet.data n 1 fuel hn hz
        simp [processPacket, hl, h254, this]
      · by_cases h1 : byteAt s.event.packet.data 0 = 1
        · rw [processPacket_pos _ _ _ _ _ _ _ (by omega) h1]
          rfl
        · simp [processPacket, hl, h254, h1, PACKET_POS]

theorem handleEvents_length (ns : NetworkService) (al fuel : Nat) :
    ∀ service : List Service, (∀ s ∈ service, scanEnds fuel s) →
      (handleEvents ns al fuel service).length = service.length := by
  intro service
  induction service with
  | nil => intro _; rfl
  | cons b t ih =>
    intro h
    have hb := handleEvent_isSome ns al fuel b (h b (by simp))
    obtain ⟨effs, he⟩ := Option.isSome_iff_exists.mp hb
    simp only [handleEvents, he, List.length_cons]
    rw [ih (fun s hs => h s (by simp [hs]))]

theorem sampleService_entersByConnect : entersByConnect sampleService := by
  intro k s p hs hc hprev
  match k with
  | 0 =>
    simp [sampleService] at hs
    subst hs
    simp [connectedIn] at hc
    simp [hc.2]
  | 1 =>
    simp [sampleService] at hs
    subst hs
    rcases hprev with h0 | ⟨s0, hs0, hn⟩
    · simp at h0
    · simp [sampleService] at hs0
      subst hs0
      simp [connectedIn] at hc hn
      refine ⟨rfl, ?_⟩
      show 1 = p
      have := hn hc.1
      omega
  | 2 =>
    simp [sampleService] at hs
    subst hs
    rcases hprev with h0 | ⟨s0, hs0, hn⟩
    · simp at h0
    · simp [sampleService] at hs0
      subst hs0
      simp [connectedIn] at hc hn
      have := hn hc.1
      omega
  | n + 3 => simp [sampleService] at hs

/-! ## C1: the sender id follows the length rule -/

/-- C1: a payload whose first byte is 1, delivered through the slot `peer`, surfaces
exactly one event, a position event; its senderId is the little-endian u32 in payload
bytes 1..4 when the payload has at least 21 bytes, and the transport handle of the
delivering peer, `(uint32_t)peer->incomingPeerID`, when it has fewer (17 included). -/
theorem processPacket_senderId_by_length (ns : NetworkService) (al : Nat) (stack : Nat → Nat)
    (fuel : Nat) (host : ENetHost) (peer : Nat) (packet : ENetPacket)
    (hlen : 1 ≤ packet.dataLength) (hkind : byteAt packet.data 0 = 1) :
    ∃ pos yaw,
      (processPacket ns al stack fuel host peer packet).map surfaced =
        some [Effect.onPositionReceived
          (if 21 ≤ packet.dataLength then
            byteAt packet.data 1 + 256 * byteAt packet.data 2 + 65536 * byteAt packet.data 3
              + 16777216 * byteAt packet.data 4
           else (host.peers peer).incomingPeerID % 65536) pos yaw] := by
  refine ⟨decodedPos packet, decodedYaw packet, ?_⟩
  rw [processPacket_pos ns al stack fuel host peer packet hlen hkind]
  simp only [Option.map_some', surfaced_pos_cons, load32]

/-- An instance of the length rule: a 17-byte payload from the peer in slot 2 (handle 2)
and a 21-byte payload that names sender 9, both received by a client. -/
theorem processPacket_senderId_by_length_witness :
    (∃ pos yaw,
      (processPacket ⟨none, some 0, NetworkRole.Client, []⟩ 4 (fun _ => 0) 0
          ⟨3, fun i => ⟨i, ENetPeerState.CONNECTED⟩⟩ 2
          (deliver [1, 0, 0, 128, 63, 0, 0, 0, 64, 0, 0, 64, 64, 0, 0, 0, 0] (fun _ => 0))).map
        surfaced = some [Effect.onPositionReceived 2 pos yaw]) ∧
    (∃ pos yaw,
      (processPacket ⟨none, some 0, NetworkRole.Client, []⟩ 4 (fun _ => 0) 0
          ⟨3, fun i => ⟨i, ENetPeerState.CONNECTED⟩⟩ 2
          (deliver [1, 9, 0, 0, 0, 0, 0, 128, 63, 0, 0, 0, 64, 0, 0, 64, 64, 0, 0, 0, 0]
            (fun _ => 0))).map
        surfaced = some [Effect.onPositionReceived 9 pos yaw]) :=
  ⟨processPacket_senderId_by_length ⟨none, some 0, NetworkRole.Client, []⟩ 4 (fun _ => 0) 0
      ⟨3, fun i => ⟨i, ENetPeerState.CONNECTED⟩⟩ 2
      (deliver [1, 0, 0, 128, 63, 0, 0, 0, 64, 0, 0, 64, 64, 0, 0, 0, 0] (fun _ => 0))
      (by decide) (by decide),
   processPacket_senderId_by_length ⟨none, some 0, NetworkRole.Client, []⟩ 4 (fun _ => 0) 0
      ⟨3, fun i => ⟨i, ENetPeerState.CONNECTED⟩⟩ 2
      (deliver [1, 9, 0, 0, 0, 0, 0, 128, 63, 0, 0, 0, 64, 0, 0, 64, 64, 0, 0, 0, 0] (fun _ => 0))
      (by decide) (by decide)⟩

/-! ## C2: relay fan-out -/

/-- C2: as Server, a kind=1 payload received through slot `peer` is relayed as one
payload `rp`, built from the handle of `peer` and the decoded position; every packet
sent is `rp` on channel 0, unreliably, and the slot `i` receives it once if it is in
the connected state and is not `peer`, and not at all otherwise. -/
theorem processPacket_relay_fan_out (ns : NetworkService) (al : Nat) (stack : Nat → Nat)
    (fuel : Nat) (host : ENetHost) (peer : Nat) (packet : ENetPacket)
    (hrole : ns.m_role = NetworkRole.Server)
    (hlen : 1 ≤ packet.dataLength) (hkind : byteAt packet.data 0 = 1) :
    ∃ sid pos yaw effs,
      processPacket ns al stack fuel host peer packet = some effs ∧
      surfaced effs = [Effect.onPositionReceived sid pos yaw] ∧
      (∀ e ∈ sent effs, ∃ i, e = Effect.peer_send i 0 ENetPacketFlag.UNRELIABLE_FRAGMENT
        (relayPkt al stack ((host.peers peer).incomingPeerID % 65536) pos yaw)) ∧
      ∀ i, (sent effs).count (Effect.peer_send i 0 ENetPacketFlag.UNRELIABLE_FRAGMENT
          (relayPkt al stack ((host.peers peer).incomingPeerID % 65536) pos yaw)) =
        if connectedIn host i ∧ i ≠ peer then 1 else 0 := by
  refine ⟨if 21 ≤ packet.dataLength then load32 packet.data 1
      else (host.peers peer).incomingPeerID % 65536, decodedPos packet, decodedYaw packet, _,
    processPacket_pos ns al stack fuel host peer packet hlen hkind, ?_, ?_, ?_⟩
  · exact surfaced_pos_cons _ _ _ _ _ _ _
  · rw [sent_pos_cons, if_pos hrole]
    intro e he
    simp only [relayFanOut, List.mem_map] at he
    obtain ⟨i, _, rfl⟩ := he
    exact ⟨i, rfl⟩
  · intro i
    rw [sent_pos_cons, if_pos hrole]
    exact count_relayFanOut host peer _ i

/-- An instance of the fan-out on `sampleServer`: a 17-byte position payload arrives
through slot 2 of `sampleHost`. -/
theorem processPacket_relay_fan_out_witness :
    ∃ sid pos yaw effs,
      processPacket sampleServer 4 (fun _ => 0) 0 sampleHost 2 samplePacket17 = some effs ∧
      surfaced effs = [Effect.onPositionReceived sid pos yaw] ∧
      (∀ e ∈ sent effs, ∃ i, e = Effect.peer_send i 0 ENetPacketFlag.UNRELIABLE_FRAGMENT
        (relayPkt 4 (fun _ => 0) ((sampleHost.peers 2).incomingPeerID % 65536) pos yaw)) ∧
      ∀ i, (sent effs).count (Effect.peer_send i 0 ENetPacketFlag.UNRELIABLE_FRAGMENT
          (relayPkt 4 (fun _ => 0) ((sampleHost.peers 2).incomingPeerID % 65536) pos yaw)) =
        if connectedIn sampleHost i ∧ i ≠ 2 then 1 else 0 :=
  processPacket_relay_fan_out sampleServer 4 (fun _ => 0) 0 sampleHost 2 samplePacket17
    rfl (by decide) (by decide)

/-! ## C3: a Client's payload decoded by the receiver -/

/-- C3 on the code with `alignof(float) = 4`: the payload a Client sends for the position
(1.0f, 2.0f, 3.0f) and yaw 0.0f (bit patterns 1065353216, 1073741824, 1077936128, 0)
surfaces one position event that carries the handle of the delivering peer, but
not the position: processPacket reads the floats from offset 1, so y arrives as the
bit pattern 4161536, z as 4194304 and yaw as 4210688, and x is made of the three padding
bytes. -/
theorem client_round_trip_abi4 (ns : NetworkService) (al : Nat) (stack0 : Nat → Nat) (fuel : Nat)
    (host : ENetHost) (peer : Nat) (stack heap : Nat → Nat) :
    (processPacket ns al stack0 fuel host peer
        (deliver (simplePkt 4 stack ⟨1065353216, 1073741824, 1077936128⟩ 0) heap)).map surfaced =
      some [Effect.onPositionReceived ((host.peers peer).incomingPeerID % 65536)
        ⟨stack 1 % 256 + 256 * (stack 2 % 256) + 65536 * (stack 3 % 256), 4161536, 4194304⟩
        4210688] ∧
    (processPacket ns al stack0 fuel host peer
        (deliver (simplePkt 4 stack ⟨1065353216, 1073741824, 1077936128⟩ 0) heap)).map surfaced ≠
      some [Effect.onPositionReceived ((host.peers peer).incomingPeerID % 65536)
        ⟨1065353216, 1073741824, 1077936128⟩ 0] := by
  have h : (processPacket ns al stack0 fuel host peer
        (deliver (simplePkt 4 stack ⟨1065353216, 1073741824, 1077936128⟩ 0) heap)).map surfaced =
      some [Effect.onPositionReceived ((host.peers peer).incomingPeerID % 65536)
        ⟨stack 1 % 256 + 256 * (stack 2 % 256) + 65536 * (stack 3 % 256), 4161536, 4194304⟩
        4210688] := by
    rw [decode_simplePkt_abi4]
    norm_num
  refine ⟨h, ?_⟩
  rw [h]
  simp

/-! ## C4: a relayed payload decoded by a receiving Client -/

/-- C4 on the code with `alignof(uint32_t) = alignof(float) = 4`: the Server on
`sampleHost` receives from slot 2 (handle 2) a 17-byte kind=1 payload with the position
(1.0f, 2.0f, 3.0f), decodes it as such and relays `rp` to the slots 0 and 1; a Client
that receives `rp` surfaces a position event whose senderId is at least 33554432 (not 2)
and whose position is (0, bit pattern 4161536, bit pattern 4194304), not the decoded
one. -/
theorem relay_round_trip_abi4 (name : List Nat) (stack : Nat → Nat) (fuel : Nat)
    (stack1 heap : Nat → Nat)
    (ns : NetworkService) (al : Nat) (stack0 : Nat → Nat) (fuel0 : Nat)
    (host0 : ENetHost) (peer0 : Nat) (heap0 : Nat → Nat) :
    processPacket ⟨some sampleHost, none, NetworkRole.Server, name⟩ 4 stack fuel sampleHost 2
        (deliver (simplePkt 1 stack1 ⟨1065353216, 1073741824, 1077936128⟩ 0) heap) =
      some [Effect.onPositionReceived 2 ⟨1065353216, 1073741824, 1077936128⟩ 0,
        Effect.peer_send 0 0 ENetPacketFlag.UNRELIABLE_FRAGMENT
          (relayPkt 4 stack 2 ⟨1065353216, 1073741824, 1077936128⟩ 0),
        Effect.peer_send 1 0 ENetPacketFlag.UNRELIABLE_FRAGMENT
          (relayPkt 4 stack 2 ⟨1065353216, 1073741824, 1077936128⟩ 0)] ∧
    (processPacket ns al stack0 fuel0 host0 peer0
        (deliver (relayPkt 4 stack 2 ⟨1065353216, 1073741824, 1077936128⟩ 0) heap0)).map
        surfaced =
      some [Effect.onPositionReceived
        (stack 1 % 256 + 256 * (stack 2 % 256) + 65536 * (stack 3 % 256) + 33554432)
        ⟨0, 4161536, 4194304⟩ 4210688] ∧
    (processPacket ns al stack0 fuel0 host0 peer0
        (deliver (relayPkt 4 stack 2 ⟨1065353216, 1073741824, 1077936128⟩ 0) heap0)).map
        surfaced ≠
      some [Effect.onPositionReceived 2 ⟨1065353216, 1073741824, 1077936128⟩ 0] := by
  have h : (processPacket ns al stack0 fuel0 host0 peer0
        (deliver (relayPkt 4 stack 2 ⟨1065353216, 1073741824, 1077936128⟩ 0) heap0)).map
        surfaced =
      some [Effect.onPositionReceived
        (stack 1 % 256 + 256 * (stack 2 % 256) + 65536 * (stack 3 % 256) + 33554432)
        ⟨0, 4161536, 4194304⟩ 4210688] := by
    rw [decode_relayPkt_abi4]
    norm_num
  refine ⟨?_, h, ?_⟩
  · rw [processPacket_simplePkt_packed]
    simp [relayFanOut, sampleHost, List.range_succ, List.filter_cons]
  · rw [h]
    simp

/-! ## C5: the Server's own position decoded by a receiver -/

/-- C5 on the code with `alignof(uint32_t) = alignof(float) = 4`: the payload the Server
broadcasts for the position (0.0f, 10.0f, 0.0f) (10.0f is 1092616192) and yaw 0.0f has
24 bytes; a receiver reads the sender id from offset 1, that is from the three padding
bytes, and the position as (0, 0, bit pattern 4268032): the 10.0f of y is lost. -/
theorem host_broadcast_round_trip_abi4 (host : ENetHost) (name : List Nat) (stack : Nat → Nat)
    (ns : NetworkService) (al : Nat) (stack0 : Nat → Nat) (fuel : Nat)
    (host0 : ENetHost) (peer : Nat) (heap : Nat → Nat) :
    sendPosition ⟨some host, none, NetworkRole.Server, name⟩ 4 stack ⟨0, 1092616192, 0⟩ 0 =
      [Effect.host_broadcast 0 ENetPacketFlag.UNRELIABLE_FRAGMENT
        (relayPkt 4 stack 0 ⟨0, 1092616192, 0⟩ 0)] ∧
    (processPacket ns al stack0 fuel host0 peer
        (deliver (relayPkt 4 stack 0 ⟨0, 1092616192, 0⟩ 0) heap)).map surfaced =
      some [Effect.onPositionReceived
        (stack 1 % 256 + 256 * (stack 2 % 256) + 65536 * (stack 3 % 256))
        ⟨0, 0, 4268032⟩ 0] ∧
    (processPacket ns al stack0 fuel host0 peer
        (deliver (relayPkt 4 stack 0 ⟨0, 1092616192, 0⟩ 0) heap)).map surfaced ≠
      some [Effect.onPositionReceived 0 ⟨0, 1092616192, 0⟩ 0] := by
  have h : (processPacket ns al stack0 fuel host0 peer
        (deliver (relayPkt 4 stack 0 ⟨0, 1092616192, 0⟩ 0) heap)).map surfaced =
      some [Effect.onPositionReceived
        (stack 1 % 256 + 256 * (stack 2 % 256) + 65536 * (stack 3 % 256))
        ⟨0, 0, 4268032⟩ 0] := by
    rw [decode_relayPkt_abi4]
    norm_num
  refine ⟨?_, h, ?_⟩
  · simp [sendPosition]
  · rw [h]
    simp

/-! ## C6: the payload a Client sends -/

/-- C6 on the code with `alignof(float) = 4`: in the Client role sendPosition sends
`sizeof(p) = 20` bytes, the kind byte 1, three padding bytes that were never written,
and the floats x, y, z, yaw at offsets 4, 8, 12, 16 (not 17 bytes with the floats at
offsets 1, 5, 9, 13). -/
theorem sendPosition_client_payload_abi4 (host : ENetHost) (pr : Nat) (name : List Nat)
    (stack : Nat → Nat) (pos : Vector3) (yaw : Nat) :
    sendPosition ⟨some host, some pr, NetworkRole.Client, name⟩ 4 stack pos yaw =
      [Effect.peer_send pr 0 ENetPacketFlag.UNRELIABLE_FRAGMENT
        ([1, stack 1 % 256, stack 2 % 256, stack 3 % 256] ++ bytes32 pos.x ++ bytes32 pos.y
          ++ bytes32 pos.z ++ bytes32 yaw)] ∧
    (simplePkt 4 stack pos yaw).length = 20 ∧
    (simplePkt 4 stack pos yaw).length ≠ 17 := by
  have h : (simplePkt 4 stack pos yaw).length = 20 := by
    simp [simplePkt_abi4, bytes32]
  refine ⟨?_, h, by omega⟩
  simp [sendPosition, simplePkt_abi4]

/-! ## C7: payloads shorter than their kind requires -/

/-- C7 on the code: processPacket checks only that the payload is not empty.  A 1-byte
payload of kind 1 surfaces a position event whose floats are read from the memory
behind the payload (and, applied to an empty registry, the event creates a record); a
3-byte payload of kind 254 surfaces a world-metadata event. -/
theorem short_payload_processed (ns : NetworkService) (al : Nat) (stack : Nat → Nat)
    (fuel : Nat) (host : ENetHost) (peer : Nat) (heap : Nat → Nat) (physics : Model → Model) :
    (processPacket ns al stack fuel host peer (deliver [1] heap)).map surfaced =
      some [Effect.onPositionReceived ((host.peers peer).incomingPeerID % 65536)
        ⟨load32 heap 1, load32 heap 5, load32 heap 9⟩ (load32 heap 13)] ∧
    processPacket ns al stack fuel host peer (deliver [1] heap) ≠ some [] ∧
    processPacket ns al stack (fuel + 2) host peer (deliver [254, 65, 0] heap) =
      some [Effect.onMapReceived [65]] ∧
    (((Engine.mk (fun _ => none) physics).run
        [Effect.onPositionReceived 7 ⟨load32 heap 1, load32 heap 5, load32 heap 9⟩
          (load32 heap 13)]).m_remotePlayers 7).isSome = true := by
  have h : (processPacket ns al stack fuel host peer (deliver [1] heap)).map surfaced =
      some [Effect.onPositionReceived ((host.peers peer).incomingPeerID % 65536)
        ⟨load32 heap 1, load32 heap 5, load32 heap 9⟩ (load32 heap 13)] := by
    rw [processPacket_pos _ _ _ _ _ _ _ (by simp [deliver]) (by simp [deliver, byteAt])]
    simp only [Option.map_some', surfaced_pos_cons]
    simp [deliver, byteAt, load32, decodedPos, decodedYaw, floatsOffset]
  refine ⟨h, ?_, ?_, ?_⟩
  · intro hEq
    rw [hEq] at h
    simp [surfaced] at h
  · simp [processPacket, deliver, byteAt, cstring]
  · simp [Engine.run, Engine.handle, Engine.onPositionReceived, createCharacter]

/-! ## C8: unrecognized and empty payloads -/

/-- C8: a Receive event whose payload is empty, or whose first byte is neither 1 nor 254,
makes processPacket invoke no callback and send no packet, whatever the role; the
registry of remote participants, which only the callbacks touch, stays as it was; and
the event loop handles the events around it exactly as if it had not been there. -/
theorem processPacket_ignores_unrecognized (ns : NetworkService) (al fuel : Nat) (s : Service)
    (htype : s.event.type = ENetEventType.RECEIVE)
    (h : s.event.packet.dataLength = 0 ∨
      (byteAt s.event.packet.data 0 ≠ 1 ∧ byteAt s.event.packet.data 0 ≠ 254)) :
    (∃ effs, processPacket ns al s.stack fuel s.host s.event.peer s.event.packet = some effs ∧
      surfaced effs = [] ∧ sent effs = [] ∧ ∀ eng : Engine, eng.run effs = eng) ∧
    ∀ before after : List Service,
      (handleEvents ns al fuel (before ++ s :: after)).flatten =
        (handleEvents ns al fuel (before ++ after)).flatten := by
  have hp := processPacket_ignored ns al s.stack fuel s.host s.event.peer s.event.packet h
  refine ⟨⟨[], hp, rfl, rfl, fun _ => rfl⟩, ?_⟩
  intro before after
  apply handleEvents_skip
  simp [handleEvent, htype, hp]

/-- An instance on `sampleServer` with the event `sampleUnknown`, a payload of kind 7. -/
theorem processPacket_ignores_unrecognized_witness :
    (∃ effs, processPacket sampleServer 4 sampleUnknown.stack 0 sampleUnknown.host
        sampleUnknown.event.peer sampleUnknown.event.packet = some effs ∧
      surfaced effs = [] ∧ sent effs = [] ∧ ∀ eng : Engine, eng.run effs = eng) ∧
    ∀ before after : List Service,
      (handleEvents sampleServer 4 0 (before ++ sampleUnknown :: after)).flatten =
        (handleEvents sampleServer 4 0 (before ++ after)).flatten :=
  processPacket_ignores_unrecognized sampleServer 4 0 sampleUnknown rfl
    (Or.inr ⟨by decide, by decide⟩)

/-! ## C9: the world name at the 63-byte boundary -/

/-- C9 on the code for a name of exactly 63 bytes: strncpy fills `name[0..62]` and writes
no terminator, `name[63]` keeps what the stack held.  With 63 letters A as the world
name, the stack byte 65 under `name[63]` and the bytes 66, 0 behind the received
payload, the 65-byte payload carries no NUL and the receiver surfaces a name of 65
bytes, not the 63-byte world name. -/
theorem metadata_round_trip_63 (ns : NetworkService) (al : Nat) (stack0 : Nat → Nat)
    (fuel : Nat) (host : ENetHost) (peer : Nat) :
    metadataPkt (fun _ => 65) (List.replicate 63 65) = 254 :: List.replicate 64 65 ∧
    processPacket ns al stack0 (fuel + 66) host peer
        (deliver (metadataPkt (fun _ => 65) (List.replicate 63 65))
          (fun i => if i = 65 then 66 else 0)) =
      some [Effect.onMapReceived (List.replicate 64 65 ++ [66])] ∧
    processPacket ns al stack0 (fuel + 66) host peer
        (deliver (metadataPkt (fun _ => 65) (List.replicate 63 65))
          (fun i => if i = 65 then 66 else 0)) ≠
      some [Effect.onMapReceived (List.replicate 63 65)] := by
  have hpk : metadataPkt (fun _ => 65) (List.replicate 63 65) = 254 :: List.replicate 64 65 := by
    decide
  have h : processPacket ns al stack0 (fuel + 66) host peer
        (deliver (metadataPkt (fun _ => 65) (List.replicate 63 65))
          (fun i => if i = 65 then 66 else 0)) =
      some [Effect.onMapReceived (List.replicate 64 65 ++ [66])] := by
    rw [hpk]
    rfl
  refine ⟨hpk, h, ?_⟩
  rw [h]
  intro hEq
  have hlen := congrArg (fun o => o.map (fun l => l.map (fun e =>
    match e with
    | Effect.onMapReceived name => name.length
    | _ => 0))) hEq
  simp at hlen

/-! ## C10: the world metadata precedes every relay -/

/-- C10: as Server, with a transport that puts a slot into the connected state only
when it hands out that slot's Connect event: (1) the loop iteration that handles the
Connect event of slot `p` (iteration `k`, reached when the `k` iterations before it
completed) sends exactly one packet, the WorldMetadata packet of the current world
name, reliably and to `p`; (2) every packet the loop sends to a slot `p` is either that
metadata packet of a Connect iteration of `p`, or a relay sent unreliably while
handling a Receive event, and then an earlier iteration handled the Connect event of
`p`, sent `p` its metadata packet, and `p` has been connected ever since (a slot that
is used again after a Disconnect counts as a new connection); (3) the loop broadcasts
nothing; (4) every event is handled when each received world name ends within the
scanned bytes. -/
theorem metadata_precedes_relay (ns : NetworkService) (al fuel : Nat) (service : List Service)
    (hrole : ns.m_role = NetworkRole.Server) (hw : entersByConnect service) :
    (∀ (k : Nat) (s : Service), k ≤ (handleEvents ns al fuel service).length → service[k]? = some s →
      s.event.type = ENetEventType.CONNECT →
      (handleEvents ns al fuel service)[k]? =
        some [Effect.onPlayerJoined ((s.host.peers s.event.peer).incomingPeerID % 65536),
          Effect.peer_send s.event.peer 0 ENetPacketFlag.RELIABLE
            (metadataPkt s.stack ns.m_mapName)]) ∧
    (∀ (j : Nat) (s : Service) (effs : List Effect) (p ch : Nat) (fl : ENetPacketFlag)
        (data : List Nat), service[j]? = some s →
      (handleEvents ns al fuel service)[j]? = some effs →
      Effect.peer_send p ch fl data ∈ effs →
      (s.event.type = ENetEventType.CONNECT ∧ s.event.peer = p ∧
        fl = ENetPacketFlag.RELIABLE) ∨
      (s.event.type = ENetEventType.RECEIVE ∧ fl = ENetPacketFlag.UNRELIABLE_FRAGMENT ∧
        ∃ (i : Nat) (s0 : Service), i < j ∧ service[i]? = some s0 ∧ s0.event.type = ENetEventType.CONNECT ∧
          s0.event.peer = p ∧
          (handleEvents ns al fuel service)[i]? =
            some [Effect.onPlayerJoined ((s0.host.peers p).incomingPeerID % 65536),
              Effect.peer_send p 0 ENetPacketFlag.RELIABLE
                (metadataPkt s0.stack ns.m_mapName)] ∧
          ∀ (m : Nat) (s1 : Service), i ≤ m → m ≤ j → service[m]? = some s1 →
            connectedIn s1.host p)) ∧
    (∀ (j : Nat) (effs : List Effect) (ch : Nat) (fl : ENetPacketFlag) (data : List Nat),
      (handleEvents ns al fuel service)[j]? = some effs →
      Effect.host_broadcast ch fl data ∉ effs) ∧
    ((∀ s ∈ service, scanEnds fuel s) →
      (handleEvents ns al fuel service).length = service.length) := by
  refine ⟨?_, ?_, ?_, handleEvents_length ns al fuel service⟩
  · intro k s hk hs ht
    exact handleEvents_reached ns al fuel service k s _ hk hs
      (handleEvent_connect ns al fuel s hrole ht)
  · intro j s effs p ch fl data hs htr hmem
    obtain ⟨s', hs', he⟩ := handleEvents_getElem ns al fuel service j effs htr
    rw [hs] at hs'
    cases hs'
    rcases handleEvent_send ns al fuel s effs p ch fl data he hmem with hc | ⟨hr, hfl, hcon, _⟩
    · exact Or.inl hc
    · refine Or.inr ⟨hr, hfl, ?_⟩
      obtain ⟨i, s0, hij, hs0, ht0, hp0, hall⟩ :=
        connected_since_connect service hw p j s hs hcon
      have hne : i ≠ j := by
        intro hEq
        subst hEq
        rw [hs] at hs0
        cases hs0
        rw [hr] at ht0
        cases ht0
      have hjlt : j < (handleEvents ns al fuel service).length :=
        (List.getElem?_eq_some_iff.mp htr).1
      have hi := handleEvents_reached ns al fuel service i s0 _ (by omega) hs0
        (handleEvent_connect ns al fuel s0 hrole ht0)
      rw [hp0] at hi
      exact ⟨i, s0, by omega, hs0, ht0, hp0, hi, hall⟩
  · intro j effs ch fl data htr
    obtain ⟨s, _, he⟩ := handleEvents_getElem ns al fuel service j effs htr
    exact handleEvent_no_broadcast ns al fuel s effs ch fl data he

/-- An instance on `sampleServer` with `sampleService`: the second loop iteration handles the
Connect event of slot 1 and sends slot 1 the metadata packet for "Baseplate". -/
theorem metadata_precedes_relay_witness :
    entersByConnect sampleService ∧
    (handleEvents sampleServer 4 0 sampleService)[1]? =
      some [Effect.onPlayerJoined 1,
        Effect.peer_send 1 0 ENetPacketFlag.RELIABLE
          (metadataPkt (fun _ => 0) [66, 97, 115, 101, 112, 108, 97, 116, 101])] :=
  ⟨sampleService_entersByConnect,
    (metadata_precedes_relay sampleServer 4 0 sampleService rfl
      sampleService_entersByConnect).1 1 _ (by decide) rfl rfl⟩

end CatCube

namespace CatCube

/-! ## C11: Connect, then Disconnect -/

/-- C11: in every role and from every registry, the Connect event of a peer with handle
`p` followed by the Disconnect event of a peer with handle `p` is handled in two loop
iterations that surface exactly the participant-joined event for `p` and then the
participant-left event for `p`; after the Engine's callbacks have run, the registry has
no record for `p`. -/
theorem connect_then_disconnect (ns : NetworkService) (al fuel : Nat) (s1 s2 : Service)
    (eng : Engine) (p : Nat)
    (h1 : s1.event.type = ENetEventType.CONNECT) (h2 : s2.event.type = ENetEventType.DISCONNECT)
    (hp1 : handleOf s1 = p) (hp2 : handleOf s2 = p) :
    (handleEvents ns al fuel [s1, s2]).length = 2 ∧
    surfaced (handleEvents ns al fuel [s1, s2]).flatten =
      [Effect.onPlayerJoined p, Effect.onPlayerLeft p] ∧
    (eng.run (handleEvents ns al fuel [s1, s2]).flatten).m_remotePlayers p = none := by
  simp only [handleOf] at hp1 hp2
  by_cases hr : ns.m_role = NetworkRole.Server
  · simp [handleEvents, handleEvent, h1, h2, hp1, hp2, hr, surfaced, Effect.isCallback,
      Engine.run, Engine.handle, Engine.onPlayerJoined, Engine.onPlayerLeft]
  · simp [handleEvents, handleEvent, h1, h2, hp1, hp2, hr, surfaced, Effect.isCallback,
      Engine.run, Engine.handle, Engine.onPlayerJoined, Engine.onPlayerLeft]

/-- An instance on `sampleServer`: the peer in slot 2 of `sampleHost` connects and
disconnects while the registry holds a record for id 2 already. -/
theorem connect_then_disconnect_witness :
    (handleEvents sampleServer 4 0 [sampleConnect2, sampleDisconnect2]).length = 2 ∧
    surfaced (handleEvents sampleServer 4 0 [sampleConnect2, sampleDisconnect2]).flatten =
      [Effect.onPlayerJoined 2, Effect.onPlayerLeft 2] ∧
    ((Engine.mk (fun i => if i = 2 then some ⟨"Remote_2", none⟩ else none) (fun m => m)).run
      (handleEvents sampleServer 4 0 [sampleConnect2, sampleDisconnect2]).flatten).m_remotePlayers
        2 = none :=
  connect_then_disconnect sampleServer 4 0 sampleConnect2 sampleDisconnect2
    (Engine.mk (fun i => if i = 2 then some ⟨"Remote_2", none⟩ else none) (fun m => m)) 2 rfl rfl rfl rfl

end CatCube

namespace CatCube

/-! ## C12: what the position handler writes into the registry -/

theorem position_handler_registry_other (e : Engine) (s : Nat) (pos : Vector3) (w t : Nat)
    (ht : t ≠ s) : (e.onPositionReceived s pos w).m_remotePlayers t = e.m_remotePlayers t := by
  cases h : e.m_remotePlayers s with
  | none =>
    simp [Engine.onPositionReceived, h, createCharacter, Function.update_noteq ht]
  | some m =>
    cases hpp : m.primaryPart with
    | none => simp [Engine.onPositionReceived, h, hpp]
    | some q => simp [Engine.onPositionReceived, h, hpp, Function.update_noteq ht]

theorem handle_keeps_zero (eng : Engine) (e : Effect) (hz : e.namesZero = false)
    (h0 : eng.m_remotePlayers 0 = none) : (eng.handle e).m_remotePlayers 0 = none := by
  cases e with
  | onPlayerJoined id =>
    have hid : id ≠ 0 := by simpa [Effect.namesZero] using hz
    simp [Engine.handle, Engine.onPlayerJoined, Function.update_noteq (Ne.symm hid), h0]
  | onPlayerLeft id =>
    simp only [Engine.handle, Engine.onPlayerLeft]
    split
    · by_cases hid : id = 0
      · subst hid
        simp
      · simp [Function.update_noteq (Ne.symm hid), h0]
    · exact h0
  | onPositionReceived id pos yaw =>
    have hid : id ≠ 0 := by simpa [Effect.namesZero] using hz
    have := (position_handler_registry_other eng id pos yaw 0 (Ne.symm hid))
    simp only [Engine.handle]
    rw [this, h0]
  | onMapReceived name => exact h0
  | peer_send p c f dt => exact h0
  | host_broadcast c f dt => exact h0

theorem run_keeps_zero (effs : List Effect) :
    ∀ eng : Engine, (∀ e ∈ effs, e.namesZero = false) → eng.m_remotePlayers 0 = none →
      (eng.run effs).m_remotePlayers 0 = none := by
  induction effs with
  | nil => intro eng _ h0; exact h0
  | cons a t ih =>
    intro eng hz h0
    have ha := handle_keeps_zero eng a (hz a (by simp)) h0
    have := ih (eng.handle a) (fun e he => hz e (by simp [he])) ha
    simpa [Engine.run] using this

theorem handleEvent_namesZero (ns : NetworkService) (al fuel : Nat) (s : Service)
    (effs : List Effect) (hs : bringsNoZero s) (he : handleEvent ns al fuel s = some effs) :
    ∀ e ∈ effs, e.namesZero = false := by
  intro e hmem
  cases ht : s.event.type with
  | NONE =>
    simp [handleEvent, ht] at he
    subst he
    simp at hmem
  | DISCONNECT =>
    simp [handleEvent, ht] at he
    subst he
    simp at hmem
    subst hmem
    rfl
  | CONNECT =>
    have hh := hs.1 ht
    simp only [handleOf] at hh
    simp only [handleEvent, ht, Option.some.injEq] at he
    subst he
    simp only [List.mem_cons] at hmem
    rcases hmem with rfl | hmem
    · simp [Effect.namesZero, hh]
    · split at hmem
      · simp at hmem
        subst hmem
        rfl
      · simp at hmem
  | RECEIVE =>
    simp only [handleEvent, ht] at he
    by_cases hl : s.event.packet.dataLength < 1
    · simp [processPacket, hl] at he
      subst he
      simp at hmem
    · by_cases h254 : byteAt s.event.packet.data 0 = 254
      · simp [processPacket, hl, h254] at he
        obtain ⟨nm, _, rfl⟩ := he
        simp at hmem
        subst hmem
        rfl
      · by_cases h1 : byteAt s.event.packet.data 0 = 1
        · have hh := hs.2 ht (by omega) h1
          simp only [senderOf, handleOf] at hh
          rw [processPacket_pos _ _ _ _ _ _ _ (by omega) h1] at he
          simp only [Option.some.injEq] at he
          subst he
          simp only [List.mem_cons] at hmem
          rcases hmem with rfl | hmem
          · simp [Effect.namesZero, hh]
          · split at hmem
            · simp only [relayFanOut, List.mem_map] at hmem
              obtain ⟨i, _, rfl⟩ := hmem
              rfl
            · simp at hmem
        · simp [processPacket, hl, h254, h1, PACKET_POS] at he
          subst he
          simp at hmem

theorem handleEvents_namesZero (ns : NetworkService) (al fuel : Nat) :
    ∀ service : List Service, (∀ s ∈ service, bringsNoZero s) →
      ∀ e ∈ (handleEvents ns al fuel service).flatten, e.namesZero = false := by
  intro service
  induction service with
  | nil => intro _ e he; simp [handleEvents] at he
  | cons b t ih =>
    intro hs e he
    simp only [handleEvents] at he
    cases hb : handleEvent ns al fuel b with
    | none => simp [hb] at he
    | some effs =>
      simp only [hb, List.flatten_cons, List.mem_append] at he
      rcases he with he | he
      · exact handleEvent_namesZero ns al fuel b effs (hs b (by simp)) hb e he
      · exact ih (fun s hs0 => hs s (by simp [hs0])) e he

end CatCube

namespace CatCube

theorem run_of_sends (effs : List Effect) :
    ∀ eng : Engine, (∀ e ∈ effs, e.isCallback = false) → eng.run effs = eng := by
  induction effs with
  | nil => intro eng _; rfl
  | cons a t ih =>
    intro eng h
    have ha : eng.handle a = eng := by
      have := h a (by simp)
      cases a <;> simp_all [Effect.isCallback, Engine.handle]
    have := ih eng (fun e he => h e (by simp [he]))
    simpa [Engine.run, ha] using this

theorem sampleServiceFrom1_bringsNoZero : ∀ s ∈ sampleServiceFrom1, bringsNoZero s := by
  intro s hs
  simp only [sampleServiceFrom1, List.mem_cons, List.mem_singleton, List.not_mem_nil,
    or_false] at hs
  rcases hs with rfl | rfl
  · refine ⟨fun _ => ?_, fun h => ?_⟩
    · simp [handleOf, sampleHost]
    · simp at h
  · refine ⟨fun h => ?_, fun _ _ _ => ?_⟩
    · simp at h
    · simp [senderOf, handleOf, sampleHost, samplePacket17, deliver]

/-- Where a record for id 0 can come from: starting without one, the registry has none
after the loop has handled a sequence of events none of which brings id 0, that is no
Connect event of a peer with handle 0 and no kind=1 payload whose sender id (the handle
below 21 bytes, the embedded id from 21 bytes on) is 0. -/
theorem registry_without_zero (ns : NetworkService) (al fuel : Nat) (service : List Service)
    (eng : Engine) (h0 : eng.m_remotePlayers 0 = none)
    (hs : ∀ s ∈ service, bringsNoZero s) :
    (eng.run (handleEvents ns al fuel service).flatten).m_remotePlayers 0 = none :=
  run_keeps_zero _ eng (handleEvents_namesZero ns al fuel service hs) h0

/-- An instance on `sampleServer`: the peer with handle 1 connects and sends its position;
the registry gets no record for id 0. -/
theorem registry_without_zero_sample :
    ((Engine.mk (fun _ => none) (fun m => m)).run
      (handleEvents sampleServer 4 0 sampleServiceFrom1).flatten).m_remotePlayers 0 = none :=
  registry_without_zero sampleServer 4 0 sampleServiceFrom1
    (Engine.mk (fun _ => none) (fun m => m)) rfl
    sampleServiceFrom1_bringsNoZero

/-! ## C13: id 0 in the registry of a Server -/

/-- C13 on the code: the Server reports its own position under sender id 0, and on
`sampleServer` with an empty registry (1) the Connect event of the peer in slot 0,
whose handle is 0, puts a record with id 0 into the registry; (2) so does a 21-byte
position payload that arrives through slot 1 and names sender 0; (3) for that payload
the position event carries the embedded id 0 while the relay built in the same call
carries the handle 1 of the delivering peer. -/
theorem registry_gets_id_zero (physics : Model → Model) (stack : Nat → Nat) (pos : Vector3)
    (yaw : Nat) :
    sendPosition sampleServer 4 stack pos yaw =
      [Effect.host_broadcast 0 ENetPacketFlag.UNRELIABLE_FRAGMENT
        (relayPkt 4 stack 0 pos yaw)] ∧
    ((Engine.mk (fun _ => none) physics).run
      (handleEvents sampleServer 4 0 [sampleConnect0]).flatten).m_remotePlayers 0 ≠ none ∧
    ((Engine.mk (fun _ => none) physics).run
      (handleEvents sampleServer 4 0 [sampleNamesZero]).flatten).m_remotePlayers 0 ≠ none ∧
    handleEvent sampleServer 4 0 sampleNamesZero =
      some (Effect.onPositionReceived 0 (decodedPos sampleNamesZero.event.packet)
          (decodedYaw sampleNamesZero.event.packet) ::
        relayFanOut sampleHost 1 (relayPkt 4 (fun _ => 0) 1
          (decodedPos sampleNamesZero.event.packet)
          (decodedYaw sampleNamesZero.event.packet))) := by
  have h : handleEvent sampleServer 4 0 sampleNamesZero =
      some (Effect.onPositionReceived 0 (decodedPos sampleNamesZero.event.packet)
          (decodedYaw sampleNamesZero.event.packet) ::
        relayFanOut sampleHost 1 (relayPkt 4 (fun _ => 0) 1
          (decodedPos sampleNamesZero.event.packet)
          (decodedYaw sampleNamesZero.event.packet))) := by
    have := processPacket_pos sampleServer 4 (fun _ => 0) 0 sampleHost 1
      sampleNamesZero.event.packet (by decide) (by decide)
    simpa [handleEvent, sampleNamesZero, sampleServer, sampleHost, deliver, load32, byteAt]
      using this
  refine ⟨?_, ?_, ?_, h⟩
  · simp [sendPosition, sampleServer]
  · simp [handleEvents, handleEvent, sampleConnect0, sampleServer, sampleHost, Engine.run,
      Engine.handle, Engine.onPlayerJoined]
  · simp only [handleEvents, h, List.flatten_cons, List.flatten_nil, List.append_nil,
      Engine.run, List.foldl_cons]
    have hs := run_of_sends (relayFanOut sampleHost 1 (relayPkt 4 (fun _ => 0) 1
        (decodedPos sampleNamesZero.event.packet) (decodedYaw sampleNamesZero.event.packet)))
      ((Engine.mk (fun _ => none) physics).handle (Effect.onPositionReceived 0
        (decodedPos sampleNamesZero.event.packet) (decodedYaw sampleNamesZero.event.packet)))
      (by
        intro e he
        simp only [relayFanOut, List.mem_map] at he
        obtain ⟨i, _, rfl⟩ := he
        rfl)
    simp only [Engine.run] at hs
    rw [hs]
    simp [Engine.handle, Engine.onPositionReceived, createCharacter]

end CatCube

namespace CatCube

/-! ## C14: startClient and a failed address resolution -/

/-- C14 on the code: startClient does not look at what enet_address_set_host returns.
On a fresh service, with the host created and a peer handed out by enet_host_connect,
it returns true and sets the role to Client whatever the resolution reported, also
for the error value -1. -/
theorem startClient_ignores_resolution (addressStr : List Nat) (port : Int) (host : ENetHost)
    (pr : Nat) :
    (startClient newNetworkService addressStr port (some host) (-1) (some pr)).2 = true ∧
    getRole (startClient newNetworkService addressStr port (some host) (-1) (some pr)).1 =
      NetworkRole.Client ∧
    ∀ resolved : Int,
      (startClient newNetworkService addressStr port (some host) resolved (some pr)).2 =
        (startClient newNetworkService addressStr port (some host) 0 (some pr)).2 ∧
      getRole (startClient newNetworkService addressStr port (some host) resolved (some pr)).1 =
        getRole (startClient newNetworkService addressStr port (some host) 0 (some pr)).1 :=
  ⟨rfl, rfl, fun _ => ⟨rfl, rfl⟩⟩

/-! ## C15: role None with a transport endpoint -/

theorem startCalls_inactive (calls : List StartCall) :
    ∀ ns : NetworkService, (getRole ns = NetworkRole.None → isConnected ns = false) →
      (∀ c ∈ calls, c.connectFails = false) →
      getRole (startCalls ns calls) = NetworkRole.None →
      isConnected (startCalls ns calls) = false := by
  induction calls with
  | nil => intro ns h _; exact h
  | cons c t ih =>
    intro ns _ hc
    have hstep : getRole (StartCall.apply ns c) = NetworkRole.None →
        isConnected (StartCall.apply ns c) = false := by
      have hcf := hc c (by simp)
      cases c with
      | server mapName port created =>
        cases created <;> simp [StartCall.apply, startServer, getRole, isConnected]
      | client addressStr port created resolved connected =>
        cases created with
        | none => simp [StartCall.apply, startClient, getRole, isConnected]
        | some h =>
          cases connected with
          | none => simp [StartCall.connectFails] at hcf
          | some q => simp [StartCall.apply, startClient, getRole, isConnected]
    have := ih (StartCall.apply ns c) hstep (fun c0 hc0 => hc c0 (by simp [hc0]))
    simpa [startCalls] using this

/-- C15 on the code: a fresh service on which startClient is called once, with the host
created and enet_host_connect returning a null pointer, reports failure and ends with
the role still None and the host still held, so isConnected() is true. -/
theorem unbound_but_connected (addressStr : List Nat) (port : Int) (host : ENetHost)
    (resolved : Int) :
    (startClient newNetworkService addressStr port (some host) resolved none).2 = false ∧
    getRole (startCalls newNetworkService
      [StartCall.client addressStr port (some host) resolved none]) = NetworkRole.None ∧
    isConnected (startCalls newNetworkService
      [StartCall.client addressStr port (some host) resolved none]) = true :=
  ⟨rfl, rfl, rfl⟩

/-! ## C16: emitted lengths and the length rule -/

theorem simplePkt_shape (al : Nat) (hal : al = 1 ∨ al = 2 ∨ al = 4) (stack : Nat → Nat)
    (pos : Vector3) (yaw : Nat) :
    (simplePkt al stack pos yaw).head? = some 1 ∧ (simplePkt al stack pos yaw).length < 21 := by
  rcases hal with rfl | rfl | rfl <;>
    simp [simplePkt, member, padding, bytes32, PACKET_POS, List.range_succ]

theorem relayPkt_shape (al : Nat) (hal : al = 1 ∨ al = 2 ∨ al = 4) (stack : Nat → Nat)
    (id : Nat) (pos : Vector3) (yaw : Nat) :
    (relayPkt al stack id pos yaw).head? = some 1 ∧
      21 ≤ (relayPkt al stack id pos yaw).length := by
  rcases hal with rfl | rfl | rfl <;>
    simp [relayPkt, member, padding, bytes32, PACKET_POS, List.range_succ]

end CatCube

namespace CatCube

/-- C16: with the alignment of 4-byte scalars at 1, 2 or 4, (1) the struct sendPosition
sends as Client starts with the kind byte 1 and is shorter than 21 bytes, the struct
sent as Server and the relay struct start with the kind byte 1 and have at least 21
bytes, for every position, yaw, sender id and stack content; (2) what sendPosition
emits as Server is a broadcast of such a relay struct with sender id 0; (3) every
packet processPacket sends as Server carries a payload of kind 1 with at least 21
bytes; (4) what sendPosition emits as Client is a payload of kind 1 with fewer than 21
bytes; (5) on a started service sendPosition emits exactly one such packet.  21 bytes
is the length from which processPacket reads a payload of kind 1 as relayed
(`floatsOffset` 5 instead of 1). -/
theorem emitted_shapes_classified (al : Nat) (hal : al = 1 ∨ al = 2 ∨ al = 4) :
    (∀ (stack : Nat → Nat) (id : Nat) (pos : Vector3) (yaw : Nat),
      ((simplePkt al stack pos yaw).head? = some 1 ∧ (simplePkt al stack pos yaw).length < 21) ∧
      ((relayPkt al stack id pos yaw).head? = some 1 ∧
        21 ≤ (relayPkt al stack id pos yaw).length)) ∧
    (∀ (ns : NetworkService) (stack : Nat → Nat) (pos : Vector3) (yaw : Nat) (e : Effect),
      ns.m_role = NetworkRole.Server → e ∈ sendPosition ns al stack pos yaw →
      e = Effect.host_broadcast 0 ENetPacketFlag.UNRELIABLE_FRAGMENT
          (relayPkt al stack 0 pos yaw) ∧
        ∃ data, e.payload = some data ∧ data.head? = some 1 ∧ 21 ≤ data.length ∧
          ∀ heap, floatsOffset (deliver data heap) = 5) ∧
    (∀ (ns : NetworkService) (stack : Nat → Nat) (fuel : Nat) (host : ENetHost) (peer : Nat)
        (packet : ENetPacket) (effs : List Effect) (e : Effect),
      ns.m_role = NetworkRole.Server →
      processPacket ns al stack fuel host peer packet = some effs → e ∈ sent effs →
      ∃ data, e.payload = some data ∧ data.head? = some 1 ∧ 21 ≤ data.length ∧
        ∀ heap, floatsOffset (deliver data heap) = 5) ∧
    (∀ (ns : NetworkService) (stack : Nat → Nat) (pos : Vector3) (yaw : Nat) (e : Effect),
      ns.m_role = NetworkRole.Client → e ∈ sendPosition ns al stack pos yaw →
      ∃ data, e.payload = some data ∧ data.head? = some 1 ∧ data.length < 21 ∧
        ∀ heap, floatsOffset (deliver data heap) = 1) ∧
    (∀ (host : ENetHost) (peer : Option Nat) (pr : Nat) (name : List Nat) (stack : Nat → Nat)
        (pos : Vector3) (yaw : Nat),
      sendPosition ⟨some host, peer, NetworkRole.Server, name⟩ al stack pos yaw =
        [Effect.host_broadcast 0 ENetPacketFlag.UNRELIABLE_FRAGMENT
          (relayPkt al stack 0 pos yaw)] ∧
      sendPosition ⟨some host, some pr, NetworkRole.Client, name⟩ al stack pos yaw =
        [Effect.peer_send pr 0 ENetPacketFlag.UNRELIABLE_FRAGMENT
          (simplePkt al stack pos yaw)]) := by
  refine ⟨fun stack id pos yaw =>
    ⟨simplePkt_shape al hal stack pos yaw, relayPkt_shape al hal stack id pos yaw⟩, ?_, ?_, ?_,
    fun host peer pr name stack pos yaw => ⟨by simp [sendPosition], by simp [sendPosition]⟩⟩
  · intro ns stack pos yaw e hr he
    have hsh := relayPkt_shape al hal stack 0 pos yaw
    cases hh : ns.m_host with
    | none => simp [sendPosition, hh] at he
    | some h =>
      simp only [sendPosition, hh, hr, List.mem_singleton] at he
      subst he
      refine ⟨rfl, _, rfl, hsh.1, hsh.2, ?_⟩
      intro heap
      simp [floatsOffset, deliver, hsh.2]
  · intro ns stack fuel host peer packet effs e hr hp he
    by_cases hl : packet.dataLength < 1
    · simp [processPacket, hl] at hp
      subst hp
      simp [sent] at he
    · by_cases h254 : byteAt packet.data 0 = 254
      · simp [processPacket, hl, h254] at hp
        obtain ⟨nm, _, rfl⟩ := hp
        simp [sent, Effect.isCallback] at he
      · by_cases h1 : byteAt packet.data 0 = 1
        · rw [processPacket_pos _ _ _ _ _ _ _ (by omega) h1] at hp
          simp only [Option.some.injEq] at hp
          subst hp
          rw [sent_pos_cons, if_pos hr] at he
          simp only [relayFanOut, List.mem_map] at he
          obtain ⟨i, _, rfl⟩ := he
          have hsh := relayPkt_shape al hal stack ((host.peers peer).incomingPeerID % 65536)
            (decodedPos packet) (decodedYaw packet)
          refine ⟨_, rfl, hsh.1, hsh.2, ?_⟩
          intro heap
          simp [floatsOffset, deliver, hsh.2]
        · simp [processPacket, hl, h254, h1, PACKET_POS] at hp
          subst hp
          simp [sent] at he
  · intro ns stack pos yaw e hr he
    have hsh := simplePkt_shape al hal stack pos yaw
    cases hh : ns.m_host with
    | none => simp [sendPosition, hh] at he
    | some h =>
      cases hpeer : ns.m_peer with
      | none => simp [sendPosition, hh, hr, hpeer] at he
      | some pr =>
        simp only [sendPosition, hh, hr, hpeer, List.mem_singleton] at he
        subst he
        refine ⟨_, rfl, hsh.1, hsh.2, ?_⟩
        intro heap
        have : ¬ 21 ≤ (simplePkt al stack pos yaw).length := by omega
        simp [floatsOffset, deliver, this]

/-- An instance at alignment 4 with the position (0.0f, 10.0f, 0.0f): 20 bytes as Client,
24 bytes with a sender id. -/
theorem emitted_shapes_classified_witness :
    ((simplePkt 4 (fun _ => 0) ⟨0, 1092616192, 0⟩ 0).head? = some 1 ∧
      (simplePkt 4 (fun _ => 0) ⟨0, 1092616192, 0⟩ 0).length < 21) ∧
    ((relayPkt 4 (fun _ => 0) 0 ⟨0, 1092616192, 0⟩ 0).head? = some 1 ∧
      21 ≤ (relayPkt 4 (fun _ => 0) 0 ⟨0, 1092616192, 0⟩ 0).length) :=
  (emitted_shapes_classified 4 (Or.inr (Or.inr rfl))).1 (fun _ => 0) 0 ⟨0, 1092616192, 0⟩ 0

end CatCube
